import Mathlib

/-!
Shallow embedding of the behavior-analyzer event-processor Lambda
(`src/infrastructure/cdk/lambda/processor/handler.py`).

Modelling conventions:
* Python numbers (ints, floats, DynamoDB Decimals, JSON numbers) are
  modelled as exact rationals `ℚ`; Python `int(...)` truncation toward
  zero is `pyInt`.  The single genuinely irrational operation,
  `(m2 / n) ** 0.5` in `extract_features`, is modelled as `Real.sqrt`
  on `ℝ` (for a nonnegative radicand, the case every state reachable
  by the program satisfies).
* A DynamoDB item of the player-state table is a record of optional
  attributes (`PItem`); `item.get(k, d)` is `(PItem.k item).getD d`.
  An absent item is the all-`none` record, matching
  `response.get('Item', {})`.
* An event's `metadata` may be a mapping, a string (modelled by the
  outcome of `json.loads` on it: a mapping, a non-mapping JSON value, or
  a parse error), or a non-string non-mapping value.  Mapping values for
  the keys the code reads (`shots`, `hits`, `headshots`, `damage`) are
  JSON numbers, modelled as `ℚ`.  A `.get` on a non-mapping raises; this
  is the `Except.error` branch of `accumStats`, whose payload is the
  caller's event list as mutated up to the failure point (Python mutates
  the shared event dicts in place).
* `evt['_interesting_reason'] = f'high_accuracy:{a:.2f}'` style writes
  are modelled by the `interestingReason` field of `Event`, whose value
  records which branch fired and the unrounded number interpolated into
  the reason string.
* Store writes are immediate updates of a `(pk, sk) -> item` map; the
  per-player `try/except` of `update_player_states` is modelled by a
  fault oracle saying which `get_item`/`put_item` calls raise.
* Wall-clock values (`now`, ttl epochs, uuids, `processingTimeMs`) are
  parameters.
-/

namespace BehaviorAnalyzer

/-- `ZSCORE_THRESHOLD` environment default (handler.py line 46). -/
def ZSCORE_THRESHOLD : ℚ := 3

/-- `MIN_SAMPLES_FOR_DETECTION` environment default (line 47). -/
def MIN_SAMPLES_FOR_DETECTION : ℤ := 100

/-- `ACCURACY_INTERESTING_THRESHOLD` environment default (line 50). -/
def ACCURACY_INTERESTING_THRESHOLD : ℚ := 7/10

/-- `HEADSHOT_INTERESTING_THRESHOLD` environment default (line 51). -/
def HEADSHOT_INTERESTING_THRESHOLD : ℚ := 1/2

/-- `MIN_SHOTS_FOR_INTERESTING` environment default (line 52). -/
def MIN_SHOTS_FOR_INTERESTING : ℚ := 5

/-- `HIGH_DAMAGE_THRESHOLD` constant (line 55). -/
def HIGH_DAMAGE_THRESHOLD : ℚ := 100

/-- `ACCURACY_RISK_THRESHOLD` constant (line 56). -/
def ACCURACY_RISK_THRESHOLD : ℚ := 1/2

/-- `HEADSHOT_RISK_THRESHOLD` constant (line 57). -/
def HEADSHOT_RISK_THRESHOLD : ℚ := 3/10

/-- `EVENT_TTL_DAYS` environment default (line 43). -/
def EVENT_TTL_DAYS : ℤ := 90

/-- The `ALWAYS_STORE_EVENTS` set (lines 60-66). -/
def ALWAYS_STORE_EVENTS : List String :=
  ["SESSION_START", "SESSION_END", "PLAYER_KILLED", "PLAYER_REPORTED", "PLAYER_VIOLATION"]

/-- Python `int(q)`: truncation toward zero of a (rational-valued) number. -/
def pyInt (q : ℚ) : ℤ :=
  if q < 0 then -Int.floor (-q) else Int.floor q

/-- Outcome of `json.loads` on a metadata string that parses: either a JSON
object (a mapping, with the numeric values the code reads modelled as `ℚ`)
or any non-object JSON value. -/
inductive JsonOutcome where
  | dict (m : List (String × ℚ))
  | nondict
deriving DecidableEq

/-- The `metadata` attribute of an incoming event: a mapping, a string
(represented by what `json.loads` would return on it, `none` for a parse
error), or a non-string non-mapping value (null, number, list, boolean). -/
inductive Metadata where
  | dict (m : List (String × ℚ))
  | str (parsed : Option JsonOutcome)
  | other
deriving DecidableEq

/-- Which `evt['_interesting_reason'] = ...` assignment fired, carrying the
number interpolated into the reason string. -/
inductive Reason where
  | highAccuracy (v : ℚ)
  | highHeadshot (v : ℚ)
  | highDamage (v : ℚ)
deriving DecidableEq

/-- An incoming telemetry event dict.  Absent keys are `none`.
`interestingReason` models the `_interesting_reason` key that
`extract_features` writes into the caller's dict. -/
structure Event where
  eventId : Option String := none
  owner : Option String := none
  playerId : Option String := none
  actionType : Option String := none
  timestamp : Option ℤ := none
  sessionId : Option String := none
  metadata : Option Metadata := none
  interestingReason : Option Reason := none
deriving DecidableEq

/-- The metadata value seen by the `.get` calls after the string-coercion
step (handler.py lines 345-351): `some m` if it is a mapping at that point;
`none` if it is a non-mapping, so that a subsequent `.get` raises. -/
def resolveMetadata : Option Metadata → Option (List (String × ℚ))
  | none => some []
  | some (.dict m) => some m
  | some (.str none) => some []
  | some (.str (some (.dict m))) => some m
  | some (.str (some .nondict)) => none
  | some .other => none

/-- Accumulator of the per-event loop of `extract_features`
(lines 329-392): local combat counters, the interesting-event list, and the
caller's event list as mutated so far. -/
structure Stats where
  shots_fired : ℚ := 0
  shots_hit : ℚ := 0
  headshots : ℚ := 0
  kills : ℤ := 0
  interesting : List Event := []
  mutated : List Event := []
deriving DecidableEq

/-- The per-event loop of `extract_features` (lines 343-392).  On a
`.get` call against a non-mapping metadata value the Python code raises out
of the loop; the `Except.error` payload is the caller's event list at that
moment: events already processed (mutated where tagged), then the raising
event and the unprocessed rest, untouched. -/
def accumStats : List Event → Stats → Except (List Event) Stats
  | [], st => .ok st
  | evt :: rest, st =>
    let action_type := evt.actionType.getD ""
    if action_type ∈ ALWAYS_STORE_EVENTS then
      accumStats rest
        { st with
          kills := st.kills + (if action_type = "PLAYER_KILLED" then 1 else 0),
          interesting := st.interesting ++ [evt],
          mutated := st.mutated ++ [evt] }
    else if action_type = "WEAPON_FIRED" then
      match resolveMetadata evt.metadata with
      | none => .error (st.mutated ++ evt :: rest)
      | some md =>
        let evt_shots := (md.lookup "shots").getD 1
        let evt_hits := (md.lookup "hits").getD 0
        let evt_headshots := (md.lookup "headshots").getD 0
        let st1 :=
          { st with
            shots_fired := st.shots_fired + evt_shots,
            shots_hit := st.shots_hit + evt_hits,
            headshots := st.headshots + evt_headshots }
        if evt_shots ≥ MIN_SHOTS_FOR_INTERESTING then
          let evt_accuracy := if evt_shots > 0 then evt_hits / evt_shots else 0
          let evt_hsr := evt_headshots / max evt_hits 1
          if evt_accuracy ≥ ACCURACY_INTERESTING_THRESHOLD then
            let tagged := { evt with interestingReason := some (.highAccuracy evt_accuracy) }
            accumStats rest
              { st1 with
                interesting := st1.interesting ++ [tagged],
                mutated := st1.mutated ++ [tagged] }
          else if evt_hsr ≥ HEADSHOT_INTERESTING_THRESHOLD then
            let tagged := { evt with interestingReason := some (.highHeadshot evt_hsr) }
            accumStats rest
              { st1 with
                interesting := st1.interesting ++ [tagged],
                mutated := st1.mutated ++ [tagged] }
          else
            accumStats rest { st1 with mutated := st1.mutated ++ [evt] }
        else
          accumStats rest { st1 with mutated := st1.mutated ++ [evt] }
    else if action_type = "PLAYER_ATTACK" then
      match resolveMetadata evt.metadata with
      | none => .error (st.mutated ++ evt :: rest)
      | some md =>
        let damage := (md.lookup "damage").getD 0
        if damage > HIGH_DAMAGE_THRESHOLD then
          let tagged := { evt with interestingReason := some (.highDamage damage) }
          accumStats rest
            { st with
              interesting := st.interesting ++ [tagged],
              mutated := st.mutated ++ [tagged] }
        else
          accumStats rest { st with mutated := st.mutated ++ [evt] }
    else
      accumStats rest { st with mutated := st.mutated ++ [evt] }

/-- An item of the player-state table, as a dict of optional attributes.
Both `PROFILE` items (lines 267-277) and `FEATURES` items (lines 281-289)
are such dicts; `extract_features` reads its `existing_state` argument with
`.get(key, default)`, so an absent attribute just yields the default.
Timestamps are integer milliseconds; the remaining numbers are `ℚ` except
`accuracyStdDev`, which can carry the irrational square root the extractor
computes. -/
structure PItem where
  owner : Option String := none
  playerId : Option String := none
  lastSeen : Option ℤ := none
  firstSeen : Option ℤ := none
  eventCount : Option ℚ := none
  riskScore : Option ℚ := none
  status : Option String := none
  updatedAt : Option ℤ := none
  totalShots : Option ℚ := none
  totalHits : Option ℚ := none
  totalHeadshots : Option ℚ := none
  totalKills : Option ℚ := none
  accuracy : Option ℚ := none
  headshotRatio : Option ℚ := none
  accuracySampleCount : Option ℚ := none
  accuracyMean : Option ℚ := none
  accuracyM2 : Option ℚ := none
  accuracyStdDev : Option ℝ := none
  risk_score : Option ℚ := none

/-- The `features` dict that `extract_features` returns (lines 394-445).
Every key is always assigned, so the fields are total.  `totalHeadshots` is
`int(prior) + headshots` where `headshots` is a sum of metadata numbers,
hence rational-valued in general. -/
structure Features where
  totalShots : ℤ
  totalHits : ℤ
  totalHeadshots : ℚ
  totalKills : ℤ
  accuracy : ℚ
  headshotRatio : ℚ
  accuracySampleCount : ℤ
  accuracyMean : ℚ
  accuracyM2 : ℚ
  accuracyStdDev : ℝ
  risk_score : ℚ

/-- The aggregate-merge tail of `extract_features` (lines 394-443): totals,
derived ratios, the Welford update, and the risk score, computed from the
loop's local counters `st` and the prior state `existing_state`. -/
noncomputable def mergeFeatures (st : Stats) (existing_state : PItem) : Features :=
  let existing_shots : ℚ := (PItem.totalShots existing_state).getD 0
  let existing_hits : ℚ := (PItem.totalHits existing_state).getD 0
  let total_shots := existing_shots + st.shots_fired
  let total_hits := existing_hits + st.shots_hit
  let totalHeadshotsV : ℚ := (pyInt ((PItem.totalHeadshots existing_state).getD 0) : ℚ) + st.headshots
  let accuracyV : ℚ := if total_shots > 0 then total_hits / total_shots else 0
  let hsRatioV : ℚ := if total_shots > 0 then totalHeadshotsV / max total_hits 1 else 0
  let welford : ℤ × ℚ × ℚ × ℝ :=
    if st.shots_fired > 0 then
      let session_accuracy := st.shots_hit / st.shots_fired
      let n := (PItem.accuracySampleCount existing_state).getD 0 + 1
      let mean0 := (PItem.accuracyMean existing_state).getD 0
      let m20 := (PItem.accuracyM2 existing_state).getD 0
      let delta := session_accuracy - mean0
      let mean1 := mean0 + delta / n
      let delta2 := session_accuracy - mean1
      let m21 := m20 + delta * delta2
      (pyInt n, mean1, m21, if n > 1 then Real.sqrt ((m21 / n : ℚ) : ℝ) else 0)
    else
      (pyInt ((PItem.accuracySampleCount existing_state).getD 0),
       (PItem.accuracyMean existing_state).getD 0,
       (PItem.accuracyM2 existing_state).getD 0,
       (PItem.accuracyStdDev existing_state).getD 0)
  let risk1 : ℚ :=
    if accuracyV > ACCURACY_RISK_THRESHOLD then (accuracyV - ACCURACY_RISK_THRESHOLD) * 100 else 0
  let risk2 : ℚ :=
    if hsRatioV > HEADSHOT_RISK_THRESHOLD then risk1 + (hsRatioV - HEADSHOT_RISK_THRESHOLD) * 100
    else risk1
  { totalShots := pyInt total_shots
    totalHits := pyInt total_hits
    totalHeadshots := totalHeadshotsV
    totalKills := pyInt ((PItem.totalKills existing_state).getD 0) + st.kills
    accuracy := accuracyV
    headshotRatio := hsRatioV
    accuracySampleCount := welford.1
    accuracyMean := welford.2.1
    accuracyM2 := welford.2.2.1
    accuracyStdDev := welford.2.2.2
    risk_score := min risk2 100 }

/-- `extract_features(events, existing_state)` (lines 300-445): runs the
per-event loop, then the aggregate merge.  Returns
`(features, interesting_events, mutated caller event list)`; the error case
propagates the exception a metadata `.get` raised, with the caller's event
list as mutated so far. -/
noncomputable def extract_features (events : List Event) (existing_state : PItem) :
    Except (List Event) (Features × List Event × List Event) :=
  match accumStats events {} with
  | .error evts => .error evts
  | .ok st => .ok (mergeFeatures st existing_state, st.interesting, st.mutated)

/-- Append `evt` to `pid`'s group, keeping the group order of first
appearance (the iteration order of the Python `defaultdict`). -/
def addToGroup (acc : List (String × List Event)) (pid : String) (evt : Event) :
    List (String × List Event) :=
  match acc with
  | [] => [(pid, [evt])]
  | (p, es) :: rest =>
    if p = pid then (p, es ++ [evt]) :: rest else (p, es) :: addToGroup rest pid evt

/-- `player_events` grouping of `update_player_states` (lines 244-247):
events grouped by `evt.get('playerId', 'unknown')`, groups ordered by first
appearance, events in arrival order within a group. -/
def groupByPlayer (events : List Event) : List (String × List Event) :=
  events.foldl (fun acc evt => addToGroup acc (evt.playerId.getD "unknown") evt) []

/-- The player-state table: a map from `(pk, sk)` to an item. -/
def PlayersTable : Type := String × String → Option PItem

/-- Fault oracle for the per-player `try` block of `update_player_states`:
which store calls raise, keyed by the player's `pk`. -/
structure Faults where
  getProfileFails : String → Bool := fun _ => false
  putProfileFails : String → Bool := fun _ => false
  putFeaturesFails : String → Bool := fun _ => false

/-- The `profile_item` dict (lines 267-277).  Note it carries none of the
feature counters. -/
def profile_item (owner player_id : String) (now : ℤ) (existing : PItem)
    (features : Features) (p_events_len : ℕ) : PItem :=
  { owner := some owner
    playerId := some player_id
    lastSeen := some now
    firstSeen := some (existing.firstSeen.getD now)
    eventCount := some ((pyInt (existing.eventCount.getD 0) : ℚ) + p_events_len)
    riskScore := some features.risk_score
    status := some (existing.status.getD "MONITOR") }

/-- The `features_item` dict (lines 281-289): the features dict plus
identity attributes, every float stored as an exact decimal. -/
def features_item (owner player_id : String) (now : ℤ) (features : Features) : PItem :=
  let hsR := Features.headshotRatio features
  { owner := some owner
    playerId := some player_id
    updatedAt := some now
    totalShots := some (features.totalShots : ℚ)
    totalHits := some (features.totalHits : ℚ)
    totalHeadshots := some features.totalHeadshots
    totalKills := some (features.totalKills : ℚ)
    accuracy := some features.accuracy
    headshotRatio := some hsR
    accuracySampleCount := some (features.accuracySampleCount : ℚ)
    accuracyMean := some features.accuracyMean
    accuracyM2 := some features.accuracyM2
    accuracyStdDev := some features.accuracyStdDev
    risk_score := some features.risk_score }

/-- Accumulator of the per-player loop of `update_player_states`:
`player_updates` (an insertion-ordered dict), the collected interesting
events, the per-player mutated event lists, and the table state. -/
structure UPSAcc where
  updates : List (String × Features)
  interesting : List Event
  mutGroups : List (String × List Event)
  table : PlayersTable

/-- Body of the per-player loop of `update_player_states` (lines 252-295).
A raising `get_item`, a metadata `.get`, or a raising `put_item` lands in
the `except` clause: the player is skipped and the loop continues.  The
mutated form of the player's events is recorded for reassembly of the
caller's event list (Python mutates the shared dicts in place; a player
skipped before `extract_features` ran leaves its events untouched). -/
noncomputable def upsStep (owner : String) (faults : Faults) (now : ℤ)
    (acc : UPSAcc) (g : String × List Event) : UPSAcc :=
  let player_id := g.1
  let p_events := g.2
  let pk := owner ++ "#" ++ player_id
  if faults.getProfileFails pk then
    { acc with mutGroups := acc.mutGroups ++ [(player_id, p_events)] }
  else
    let existing := (acc.table (pk, "PROFILE")).getD {}
    match extract_features p_events existing with
    | .error evts =>
      { acc with mutGroups := acc.mutGroups ++ [(player_id, evts)] }
    | .ok (features, p_interesting, mutatedEvs) =>
      let interesting1 := acc.interesting ++ p_interesting
      if faults.putProfileFails pk then
        { acc with
          interesting := interesting1
          mutGroups := acc.mutGroups ++ [(player_id, mutatedEvs)] }
      else
        let table1 : PlayersTable := fun k =>
          if k = (pk, "PROFILE") then
            some (profile_item owner player_id now existing features p_events.length)
          else acc.table k
        if faults.putFeaturesFails pk then
          { acc with
            interesting := interesting1
            mutGroups := acc.mutGroups ++ [(player_id, mutatedEvs)]
            table := table1 }
        else
          let table2 : PlayersTable := fun k =>
            if k = (pk, "FEATURES") then some (features_item owner player_id now features)
            else table1 k
          { updates := acc.updates ++ [(player_id, features)]
            interesting := interesting1
            mutGroups := acc.mutGroups ++ [(player_id, mutatedEvs)]
            table := table2 }

/-- Take the next not-yet-consumed mutated event of player `pid`. -/
def popFrom (gs : List (String × List Event)) (pid : String) :
    Option Event × List (String × List Event) :=
  match gs with
  | [] => (none, [])
  | (p, es) :: rest =>
    if p = pid then
      match es with
      | [] => (none, (p, es) :: rest)
      | e :: es' => (some e, (p, es') :: rest)
    else
      let pr := popFrom rest pid
      (pr.1, (p, es) :: pr.2)

/-- Reassemble the caller's event list after `update_player_states`: the
i-th event of the input is replaced by the i-th processed form recorded in
its player's mutated group (grouping preserves within-player order, so the
positions match). -/
def reassemble : List Event → List (String × List Event) → List Event
  | [], _ => []
  | evt :: rest, gs =>
    let pr := popFrom gs (evt.playerId.getD "unknown")
    (pr.1.getD evt) :: reassemble rest pr.2

/-- Result of `update_player_states`: the returned pair
`(player_updates, interesting_events)`, plus the caller-visible side
effects — the mutated input event list and the updated table. -/
structure UPSResult where
  player_updates : List (String × Features)
  interesting_events : List Event
  eventsAfter : List Event
  table : PlayersTable

/-- `update_player_states(events, owner)` (lines 224-297) over a table
state, a fault oracle for the store calls, and the wall-clock `now`. -/
noncomputable def update_player_states (events : List Event) (owner : String)
    (table : PlayersTable) (faults : Faults) (now : ℤ) : UPSResult :=
  let acc := (groupByPlayer events).foldl (upsStep owner faults now)
    { updates := [], interesting := [], mutGroups := [], table := table }
  { player_updates := acc.updates
    interesting_events := acc.interesting
    eventsAfter := reassemble events acc.mutGroups
    table := acc.table }

/-- The `features` snapshot embedded in a detection record: for
`ZSCORE_ACCURACY` the dict `{accuracy, mean, stdDev, zScore}` (lines
492-497), for `THRESHOLD_HEADSHOT` the dict
`{headshotRatio, totalHeadshots, totalHits}` (lines 509-513). -/
inductive DetFeatures where
  | zscore (accuracy mean : ℚ) (stdDev zScore : ℝ)
  | headshot (hsRatioSnap totalHeadshotsSnap : ℚ) (totalHitsSnap : ℤ)

/-- A detection dict as built by `run_detection` (lines 487-515).  The
`explanation` string interpolates rounded numbers already present in the
other fields and is not modelled. -/
structure Detection where
  playerId : String
  detectorType : String
  score : ℝ
  threshold : ℚ
  features : DetFeatures

/-- Loop body of `run_detection` for one `(player_id, features)` entry
(lines 472-515): the detections this player appends. -/
noncomputable def runDetectionOne (player_id : String) (features : Features) : List Detection :=
  let sample_count := features.accuracySampleCount
  if sample_count < MIN_SAMPLES_FOR_DETECTION then []
  else
    let mean := features.accuracyMean
    let std_dev := features.accuracyStdDev
    let current := features.accuracy
    let zdets : List Detection :=
      if std_dev > (1/100 : ℝ) then
        let z_score : ℝ := ((current : ℝ) - (mean : ℝ)) / std_dev
        if |z_score| > (ZSCORE_THRESHOLD : ℝ) then
          [{ playerId := player_id
             detectorType := "ZSCORE_ACCURACY"
             score := |z_score|
             threshold := ZSCORE_THRESHOLD
             features := .zscore current mean std_dev z_score }]
        else []
      else []
    let hsRatioV := Features.headshotRatio features
    let hdets : List Detection :=
      if hsRatioV > 1/2 then
        [{ playerId := player_id
           detectorType := "THRESHOLD_HEADSHOT"
           score := ((hsRatioV * 100 : ℚ) : ℝ)
           threshold := 50
           features := .headshot hsRatioV features.totalHeadshots features.totalHits }]
      else []
    zdets ++ hdets

/-- `run_detection(player_updates, owner)` (lines 448-517).  `owner` is
unused by the source; the detections list accumulates over players in dict
order. -/
noncomputable def run_detection (player_updates : List (String × Features)) : List Detection :=
  player_updates.foldl (fun detections pu => detections ++ runDetectionOne pu.1 pu.2) []

/-- An item of the events table as built by `store_events` (lines
202-213); `metadata` holds the value serialized by `json.dumps` (the raw
metadata attribute, not the coerced mapping). -/
structure StoredEvent where
  pk : String
  sk : String
  eventId : String
  owner : String
  playerId : String
  actionType : String
  timestamp : ℤ
  sessionId : Option String
  metadata : Option Metadata
  ttl : ℤ
deriving DecidableEq

/-- One iteration of the `store_events` batch loop (lines 195-216):
the item put for `evt`, with `fresh` the uuid drawn when `eventId` is
missing or falsy (the empty string). -/
def storeItem (owner : String) (now ttl : ℤ) (fresh : String) (evt : Event) : StoredEvent :=
  let event_id :=
    match evt.eventId with
    | some s => if s = "" then fresh else s
    | none => fresh
  let player_id := evt.playerId.getD "unknown"
  let timestamp := evt.timestamp.getD now
  { pk := owner ++ "#" ++ player_id
    sk := toString timestamp ++ "#" ++ event_id
    eventId := event_id
    owner := owner
    playerId := player_id
    actionType := evt.actionType.getD "UNKNOWN"
    timestamp := timestamp
    sessionId := evt.sessionId
    metadata := evt.metadata
    ttl := ttl }

/-- `store_events(events, owner)` (lines 187-221): the items written and
the stored count; `fresh i` is the uuid drawn for the i-th event if
needed.  No per-record failure is modelled for the events table, so every
put succeeds and the count is the list length. -/
def store_events (events : List Event) (owner : String) (now ttl : ℤ)
    (fresh : ℕ → String) : List StoredEvent × ℕ :=
  (events.enum.map (fun p => storeItem owner now ttl (fresh p.1) p.2), events.length)

/-- The three logical stores the pipeline touches. -/
structure Store where
  events : List StoredEvent
  players : PlayersTable
  detections : List Detection

/-- A JSON scalar of a response body. -/
inductive RVal where
  | boolean (b : Bool)
  | num (q : ℚ)
  | str (s : String)
deriving DecidableEq

/-- An API-gateway response as built by `create_response` (lines 558-567):
status code and body, the body a JSON object in insertion order.  The
fixed `Content-Type`/CORS headers carry no information and are omitted. -/
structure Response where
  statusCode : ℤ
  body : List (String × RVal)
deriving DecidableEq

/-- All intermediate and final data of one `lambda_handler` run (lines
107-169), for a request whose body parsed to the given event list.
`now` is `int(time.time() * 1000)`, `ttl` the events/detections TTL epoch,
`fresh` the uuid supply for stored events, `procMs` the measured
processing time, `request_id` the request id. -/
noncomputable def runPipeline (events : List Event) (store : Store) (faults : Faults)
    (now ttl : ℤ) (fresh : ℕ → String) (procMs : ℚ) (request_id : String) :
    Response × Store × UPSResult × List Detection × List Event :=
  if events.isEmpty then
    ({ statusCode := 200
       body := [("success", .boolean true), ("eventsProcessed", .num 0),
                ("detectionsCreated", .num 0), ("requestId", .str request_id)] },
     store,
     { player_updates := [], interesting_events := [], eventsAfter := [], table := store.players },
     [], [])
  else
    let owner := (events.head?.bind Event.owner).getD "unknown"
    let ups := update_player_states events owner store.players faults now
    let detections := run_detection ups.player_updates
    let detection_player_ids := detections.map Detection.playerId
    let interesting_events := ups.eventsAfter.foldl
      (fun acc evt =>
        let hit : Bool :=
          match evt.playerId with
          | some pid => decide (pid ∈ detection_player_ids)
          | none => false
        if hit then
          if evt ∈ acc then acc else acc ++ [evt]
        else acc)
      ups.interesting_events
    let stored := store_events interesting_events owner now ttl fresh
    let events_stored : ℕ := if interesting_events.isEmpty then 0 else stored.2
    let detections_stored : ℕ := detections.length
    let events_skipped : ℤ := (events.length : ℤ) - interesting_events.length
    let response : Response :=
      { statusCode := 200
        body := [("success", .boolean true),
                 ("eventsReceived", .num (events.length : ℚ)),
                 ("eventsStored", .num (events_stored : ℚ)),
                 ("eventsSkipped", .num (events_skipped : ℚ)),
                 ("playersUpdated", .num (ups.player_updates.length : ℚ)),
                 ("detectionsCreated", .num (detections_stored : ℚ)),
                 ("processingTimeMs", .num procMs),
                 ("requestId", .str request_id)] }
    (response,
     { events := store.events ++ (if interesting_events.isEmpty then [] else stored.1)
       players := ups.table
       detections := store.detections ++ detections },
     ups, detections, interesting_events)

/-- `lambda_handler` observable behavior: the response and the store
state after the run. -/
noncomputable def lambda_handler (events : List Event) (store : Store) (faults : Faults)
    (now ttl : ℤ) (fresh : ℕ → String) (procMs : ℚ) (request_id : String) :
    Response × Store :=
  let r := runPipeline events store faults now ttl fresh procMs request_id
  (r.1, r.2.1)

/-- A store with no items. -/
def emptyStore : Store :=
  { events := [], players := fun _ => none, detections := [] }

/-- C2, counterexample: on input `{events: []}` the handler's 200 response
carries no `eventsReceived` key at all (nor `eventsStored` /
`playersUpdated`): the early-return body is
`{success, eventsProcessed, detectionsCreated, requestId}`, so the claim
that the response's `eventsReceived`, `eventsStored` and `playersUpdated`
counters are 0 is false. -/
theorem C2_counterexample :
    ((lambda_handler [] emptyStore {} 0 0 (fun _ => "u") 0 "r").1.body.lookup
        "eventsReceived" = none) ∧
    ((lambda_handler [] emptyStore {} 0 0 (fun _ => "u") 0 "r").1.body.lookup
        "eventsStored" = none) ∧
    ((lambda_handler [] emptyStore {} 0 0 (fun _ => "u") 0 "r").1.body.lookup
        "playersUpdated" = none) := by
  refine ⟨?_, ?_, ?_⟩ <;> rfl

/-- C2, amended: for the input body `{events: []}` the handler returns
status 200 with a success response whose body is exactly
`{success: true, eventsProcessed: 0, detectionsCreated: 0, requestId}`
(counters zero, but under the key `eventsProcessed`; no `eventsReceived`,
`eventsStored` or `playersUpdated` keys), and it performs no store reads
or writes: the store is returned unchanged and the response does not
depend on the store, the fault oracle, the clock, or the uuid supply. -/
theorem C2_empty_batch (store : Store) (faults : Faults) (now ttl : ℤ)
    (fresh : ℕ → String) (procMs : ℚ) (request_id : String) :
    lambda_handler [] store faults now ttl fresh procMs request_id =
      ({ statusCode := 200
         body := [("success", .boolean true), ("eventsProcessed", .num 0),
                  ("detectionsCreated", .num 0), ("requestId", .str request_id)] },
       store) := by
  rfl

theorem foldl_append_join {α β : Type} (f : α → List β) :
    ∀ (l : List α) (init : List β),
      l.foldl (fun d x => d ++ f x) init = init ++ (l.map f).flatten := by
  intro l
  induction l with
  | nil => intro init; simp
  | cons x xs ih => intro init; simp [ih (init ++ f x)]

theorem run_detection_eq_join (pus : List (String × Features)) :
    run_detection pus = (pus.map (fun pu => runDetectionOne pu.1 pu.2)).flatten := by
  have h := foldl_append_join (fun pu : String × Features => runDetectionOne pu.1 pu.2) pus []
  simpa [run_detection] using h

/-- C4: `run_detection` is the per-player concatenation of
`runDetectionOne`; a player below the sample floor emits no detection of
any type; and for any player entry, a `ZSCORE_ACCURACY` detection is
emitted iff the sample floor is met, `accuracyStdDev > 0.01`, and
`|(accuracy - accuracyMean) / accuracyStdDev| > ZSCORE_THRESHOLD`; any
emitted z-score detection carries `score = |z|` and a features snapshot
recording the signed `zScore`. -/
theorem C4_zscore_detection :
    (∀ pus, run_detection pus = (pus.map (fun pu => runDetectionOne pu.1 pu.2)).flatten) ∧
    (∀ pid f, f.accuracySampleCount < MIN_SAMPLES_FOR_DETECTION → runDetectionOne pid f = []) ∧
    (∀ pid f,
      ((∃ d ∈ runDetectionOne pid f, d.detectorType = "ZSCORE_ACCURACY") ↔
        (MIN_SAMPLES_FOR_DETECTION ≤ f.accuracySampleCount ∧
         f.accuracyStdDev > 1/100 ∧
         |((f.accuracy : ℝ) - (f.accuracyMean : ℝ)) / f.accuracyStdDev| >
           (ZSCORE_THRESHOLD : ℝ))) ∧
      (∀ d ∈ runDetectionOne pid f, d.detectorType = "ZSCORE_ACCURACY" →
        d.playerId = pid ∧
        d.score = |((f.accuracy : ℝ) - (f.accuracyMean : ℝ)) / f.accuracyStdDev| ∧
        d.features = DetFeatures.zscore f.accuracy f.accuracyMean f.accuracyStdDev
          (((f.accuracy : ℝ) - (f.accuracyMean : ℝ)) / f.accuracyStdDev))) := by
  refine ⟨run_detection_eq_join, ?_, ?_⟩
  · intro pid f hlt
    simp [runDetectionOne, hlt]
  · intro pid f
    by_cases hs : f.accuracySampleCount < MIN_SAMPLES_FOR_DETECTION
    · constructor
      · simp only [runDetectionOne, if_pos hs]
        constructor
        · rintro ⟨d, hd, -⟩; exact absurd hd (List.not_mem_nil d)
        · rintro ⟨hge, -, -⟩; omega
      · intro d hd
        simp only [runDetectionOne, if_pos hs] at hd
        exact absurd hd (List.not_mem_nil d)
    · push_neg at hs
      by_cases hsd : f.accuracyStdDev > (1/100 : ℝ)
      · by_cases hz :
          |((f.accuracy : ℝ) - (f.accuracyMean : ℝ)) / f.accuracyStdDev| >
            (ZSCORE_THRESHOLD : ℝ)
        · constructor
          · constructor
            · intro _; exact ⟨hs, hsd, hz⟩
            · intro _
              refine ⟨{ playerId := pid
                        detectorType := "ZSCORE_ACCURACY"
                        score := |((f.accuracy : ℝ) - (f.accuracyMean : ℝ)) / f.accuracyStdDev|
                        threshold := ZSCORE_THRESHOLD
                        features := DetFeatures.zscore f.accuracy f.accuracyMean
                          f.accuracyStdDev
                          (((f.accuracy : ℝ) - (f.accuracyMean : ℝ)) / f.accuracyStdDev) },
                      ?_, rfl⟩
              simp only [runDetectionOne, if_neg (not_lt.mpr hs)]
              rw [if_pos hsd, if_pos hz]
              exact List.mem_append_left _ (List.mem_singleton_self _)
          · intro d hd hdt
            simp only [runDetectionOne, if_neg (not_lt.mpr hs), if_pos hsd, if_pos hz,
              List.mem_append, List.mem_singleton] at hd
            rcases hd with hd | hd
            · subst hd; exact ⟨rfl, rfl, rfl⟩
            · by_cases hh : Features.headshotRatio f > 1/2
              · rw [if_pos hh, List.mem_singleton] at hd
                subst hd; exact absurd hdt (by simp)
              · rw [if_neg hh] at hd
                exact absurd hd (List.not_mem_nil d)
        · constructor
          · constructor
            · rintro ⟨d, hd, hdt⟩
              simp only [runDetectionOne, if_neg (not_lt.mpr hs), if_pos hsd, if_neg hz,
                List.nil_append] at hd
              by_cases hh : Features.headshotRatio f > 1/2
              · rw [if_pos hh, List.mem_singleton] at hd
                subst hd; exact absurd hdt (by simp)
              · rw [if_neg hh] at hd
                exact absurd hd (List.not_mem_nil d)
            · rintro ⟨-, -, h⟩; exact absurd h hz
          · intro d hd hdt
            simp only [runDetectionOne, if_neg (not_lt.mpr hs), if_pos hsd, if_neg hz,
              List.nil_append] at hd
            by_cases hh : Features.headshotRatio f > 1/2
            · rw [if_pos hh, List.mem_singleton] at hd
              subst hd; exact absurd hdt (by simp)
            · rw [if_neg hh] at hd
              exact absurd hd (List.not_mem_nil d)
      · constructor
        · constructor
          · rintro ⟨d, hd, hdt⟩
            simp only [runDetectionOne, if_neg (not_lt.mpr hs), if_neg hsd,
              List.nil_append] at hd
            by_cases hh : Features.headshotRatio f > 1/2
            · rw [if_pos hh, List.mem_singleton] at hd
              subst hd; exact absurd hdt (by simp)
            · rw [if_neg hh] at hd
              exact absurd hd (List.not_mem_nil d)
          · rintro ⟨-, h, -⟩; exact absurd h hsd
        · intro d hd hdt
          simp only [runDetectionOne, if_neg (not_lt.mpr hs), if_neg hsd,
            List.nil_append] at hd
          by_cases hh : Features.headshotRatio f > 1/2
          · rw [if_pos hh, List.mem_singleton] at hd
            subst hd; exact absurd hdt (by simp)
          · rw [if_neg hh] at hd
            exact absurd hd (List.not_mem_nil d)

/-- Membership in a conditional singleton. -/
theorem mem_ite_singleton {α : Type} (d x : α) (c : Prop) [Decidable c] :
    d ∈ (if c then [x] else []) ↔ c ∧ d = x := by
  split
  · simp_all
  · simp_all

/-- A feature vector whose accuracy deviates 4 standard deviations from
its mean, with ample samples. -/
noncomputable def fHot : Features :=
  { totalShots := 1000
    totalHits := 900
    totalHeadshots := 0
    totalKills := 0
    accuracy := 9/10
    headshotRatio := 0
    accuracySampleCount := 150
    accuracyMean := 1/2
    accuracyM2 := 3/2
    accuracyStdDev := (1/10 : ℝ)
    risk_score := 40 }

/-- A feature vector below the detection sample floor. -/
noncomputable def fLow : Features :=
  { totalShots := 10
    totalHits := 7
    totalHeadshots := 7
    totalKills := 0
    accuracy := 7/10
    headshotRatio := 1
    accuracySampleCount := 5
    accuracyMean := 7/10
    accuracyM2 := 0
    accuracyStdDev := (0 : ℝ)
    risk_score := 90 }

/-- C4, witness: the player below the sample floor emits nothing, and a
concrete player with `z = 4` emits a `ZSCORE_ACCURACY` detection. -/
theorem C4_zscore_detection_witness :
    runDetectionOne "p1" fLow = [] ∧
    (∃ d ∈ runDetectionOne "p1" fHot, d.detectorType = "ZSCORE_ACCURACY") := by
  constructor
  · exact C4_zscore_detection.2.1 "p1" fLow
      (by norm_num [fLow, MIN_SAMPLES_FOR_DETECTION])
  · refine ((C4_zscore_detection.2.2 "p1" fHot).1).mpr
      ⟨by norm_num [fHot, MIN_SAMPLES_FOR_DETECTION], by norm_num [fHot], ?_⟩
    have h4 : ((Features.accuracy fHot : ℝ) - (Features.accuracyMean fHot : ℝ)) /
        Features.accuracyStdDev fHot = 4 := by
      norm_num [fHot]
    rw [h4]
    rw [show |(4 : ℝ)| = 4 from abs_of_nonneg (by norm_num)]
    norm_num [ZSCORE_THRESHOLD]

/-- C5: for any player entry meeting the sample floor, a
`THRESHOLD_HEADSHOT` detection is emitted iff `headshotRatio > 0.5`
strictly (none at exactly 0.5); any emitted one carries
`score = headshotRatio * 100` and `threshold = 50.0`; and the headshot
rule is gated by the same sample-count precondition as the z-score rule:
below the floor no detection of any type is emitted. -/
theorem C5_headshot_threshold :
    (∀ pid f, MIN_SAMPLES_FOR_DETECTION ≤ f.accuracySampleCount →
      (((∃ d ∈ runDetectionOne pid f, d.detectorType = "THRESHOLD_HEADSHOT") ↔
          Features.headshotRatio f > 1/2) ∧
        (∀ d ∈ runDetectionOne pid f, d.detectorType = "THRESHOLD_HEADSHOT" →
          d.playerId = pid ∧
          d.score = (( Features.headshotRatio f * 100 : ℚ) : ℝ) ∧
          d.threshold = 50 ∧
          d.features = DetFeatures.headshot ( Features.headshotRatio f)
            f.totalHeadshots f.totalHits))) ∧
    (∀ pid f, f.accuracySampleCount < MIN_SAMPLES_FOR_DETECTION →
      runDetectionOne pid f = []) := by
  have hshape : ∀ pid f, ¬ f.accuracySampleCount < MIN_SAMPLES_FOR_DETECTION →
      ∀ d, d ∈ runDetectionOne pid f ↔
        ((f.accuracyStdDev > (1/100 : ℝ) ∧
            |((f.accuracy : ℝ) - (f.accuracyMean : ℝ)) / f.accuracyStdDev| >
              (ZSCORE_THRESHOLD : ℝ) ∧
            d = { playerId := pid
                  detectorType := "ZSCORE_ACCURACY"
                  score := |((f.accuracy : ℝ) - (f.accuracyMean : ℝ)) / f.accuracyStdDev|
                  threshold := ZSCORE_THRESHOLD
                  features := DetFeatures.zscore f.accuracy f.accuracyMean f.accuracyStdDev
                    (((f.accuracy : ℝ) - (f.accuracyMean : ℝ)) / f.accuracyStdDev) }) ∨
          ( Features.headshotRatio f > 1/2 ∧
            d = { playerId := pid
                  detectorType := "THRESHOLD_HEADSHOT"
                  score := (( Features.headshotRatio f * 100 : ℚ) : ℝ)
                  threshold := 50
                  features := DetFeatures.headshot ( Features.headshotRatio f)
                    f.totalHeadshots f.totalHits })) := by
    intro pid f hns d
    simp only [runDetectionOne, if_neg hns, List.mem_append]
    constructor
    · rintro (hd | hd)
      · left
        by_cases hsd : f.accuracyStdDev > (1/100 : ℝ)
        · rw [if_pos hsd] at hd
          by_cases hz : |((f.accuracy : ℝ) - (f.accuracyMean : ℝ)) / f.accuracyStdDev| >
              (ZSCORE_THRESHOLD : ℝ)
          · rw [if_pos hz, List.mem_singleton] at hd
            exact ⟨hsd, hz, hd⟩
          · rw [if_neg hz] at hd
            exact absurd hd (List.not_mem_nil d)
        · rw [if_neg hsd] at hd
          exact absurd hd (List.not_mem_nil d)
      · right
        by_cases hh : Features.headshotRatio f > 1/2
        · rw [if_pos hh, List.mem_singleton] at hd
          exact ⟨hh, hd⟩
        · rw [if_neg hh] at hd
          exact absurd hd (List.not_mem_nil d)
    · rintro (⟨hsd, hz, hd⟩ | ⟨hh, hd⟩)
      · left
        rw [if_pos hsd, if_pos hz, List.mem_singleton]
        exact hd
      · right
        rw [if_pos hh, List.mem_singleton]
        exact hd
  constructor
  · intro pid f hge
    have hns : ¬ f.accuracySampleCount < MIN_SAMPLES_FOR_DETECTION := not_lt.mpr hge
    constructor
    · constructor
      · rintro ⟨d, hd, hdt⟩
        rcases (hshape pid f hns d).mp hd with ⟨-, -, hd⟩ | ⟨hh, -⟩
        · subst hd; exact absurd hdt (by simp)
        · exact hh
      · intro hh
        refine ⟨_, (hshape pid f hns _).mpr (Or.inr ⟨hh, rfl⟩), rfl⟩
    · intro d hd hdt
      rcases (hshape pid f hns d).mp hd with ⟨-, -, hd⟩ | ⟨-, hd⟩
      · subst hd; exact absurd hdt (by simp)
      · subst hd; exact ⟨rfl, rfl, rfl, rfl⟩
  · intro pid f hlt
    simp [runDetectionOne, hlt]

/-- A feature vector with `headshotRatio = 0.6` and ample samples. -/
noncomputable def fHS : Features :=
  { totalShots := 1000
    totalHits := 500
    totalHeadshots := 300
    totalKills := 10
    accuracy := 1/2
    headshotRatio := 6/10
    accuracySampleCount := 150
    accuracyMean := 1/2
    accuracyM2 := 0
    accuracyStdDev := (0 : ℝ)
    risk_score := 30 }

/-- A feature vector with `headshotRatio = 0.5` exactly and ample samples. -/
noncomputable def fBoundary : Features :=
  { totalShots := 1000
    totalHits := 500
    totalHeadshots := 250
    totalKills := 10
    accuracy := 1/2
    headshotRatio := 1/2
    accuracySampleCount := 150
    accuracyMean := 1/2
    accuracyM2 := 0
    accuracyStdDev := (0 : ℝ)
    risk_score := 20 }

/-- C5, witness: at ratio 0.6 and 150 samples a headshot detection is
emitted; at exactly 0.5 none is. -/
theorem C5_headshot_threshold_witness :
    (∃ d ∈ runDetectionOne "p1" fHS, d.detectorType = "THRESHOLD_HEADSHOT") ∧
    ¬ (∃ d ∈ runDetectionOne "p1" fBoundary, d.detectorType = "THRESHOLD_HEADSHOT") := by
  constructor
  · exact ((C5_headshot_threshold.1 "p1" fHS
        (by norm_num [fHS, MIN_SAMPLES_FOR_DETECTION])).1).mpr (by norm_num [fHS])
  · intro h
    have := ((C5_headshot_threshold.1 "p1" fBoundary
        (by norm_num [fBoundary, MIN_SAMPLES_FOR_DETECTION])).1).mp h
    norm_num [fBoundary] at this

/-- Per-event form of the in-place mutation `extract_features` performs on
the caller's event dicts: the `_interesting_reason` write, as a function of
the event alone (the tagging conditions of lines 360-389 read nothing but
the event). -/
def mutateEvent (evt : Event) : Event :=
  let action_type := evt.actionType.getD ""
  if action_type ∈ ALWAYS_STORE_EVENTS then evt
  else if action_type = "WEAPON_FIRED" then
    match resolveMetadata evt.metadata with
    | none => evt
    | some md =>
      let evt_shots := (md.lookup "shots").getD 1
      let evt_hits := (md.lookup "hits").getD 0
      let evt_headshots := (md.lookup "headshots").getD 0
      if evt_shots ≥ MIN_SHOTS_FOR_INTERESTING then
        let evt_accuracy := if evt_shots > 0 then evt_hits / evt_shots else 0
        let evt_hsr := evt_headshots / max evt_hits 1
        if evt_accuracy ≥ ACCURACY_INTERESTING_THRESHOLD then
          { evt with interestingReason := some (.highAccuracy evt_accuracy) }
        else if evt_hsr ≥ HEADSHOT_INTERESTING_THRESHOLD then
          { evt with interestingReason := some (.highHeadshot evt_hsr) }
        else evt
      else evt
  else if action_type = "PLAYER_ATTACK" then
    match resolveMetadata evt.metadata with
    | none => evt
    | some md =>
      let damage := (md.lookup "damage").getD 0
      if damage > HIGH_DAMAGE_THRESHOLD then
        { evt with interestingReason := some (.highDamage damage) }
      else evt
  else evt

theorem accumStats_step (evt : Event) (rest : List Event) (st st' : Stats)
    (h : accumStats (evt :: rest) st = .ok st') :
    ∃ stMid : Stats, accumStats rest stMid = .ok st' ∧
      stMid.mutated = st.mutated ++ [mutateEvent evt] ∧
      (stMid.interesting = st.interesting ∨
        (stMid.interesting = st.interesting ++ [mutateEvent evt] ∧
          ((mutateEvent evt).actionType.getD "" ∈ ALWAYS_STORE_EVENTS ∨
            ∃ r, (mutateEvent evt).interestingReason = some r))) := by
  by_cases hA : (evt.actionType.getD "") ∈ ALWAYS_STORE_EVENTS
  · rw [show accumStats (evt :: rest) st =
        accumStats rest
          { st with
            kills := st.kills + (if evt.actionType.getD "" = "PLAYER_KILLED" then 1 else 0),
            interesting := st.interesting ++ [evt],
            mutated := st.mutated ++ [evt] } from by
      simp only [accumStats]; rw [if_pos hA]] at h
    refine ⟨_, h, by simp [mutateEvent, hA], Or.inr ⟨by simp [mutateEvent, hA], Or.inl ?_⟩⟩
    simp only [mutateEvent, if_pos hA]
    exact hA
  · by_cases hW : evt.actionType.getD "" = "WEAPON_FIRED"
    · rcases hM : resolveMetadata evt.metadata with _ | md
      · rw [show accumStats (evt :: rest) st = .error (st.mutated ++ evt :: rest) from by
          simp only [accumStats]; rw [if_neg hA, if_pos hW, hM]] at h
        exact absurd h (by simp)
      · by_cases hS : ((md.lookup "shots").getD 1) ≥ MIN_SHOTS_FOR_INTERESTING
        · by_cases hAcc : (if ((md.lookup "shots").getD 1) > 0 then
              ((md.lookup "hits").getD 0) / ((md.lookup "shots").getD 1) else 0) ≥
              ACCURACY_INTERESTING_THRESHOLD
          · rw [show accumStats (evt :: rest) st =
                accumStats rest
                  { st with
                    shots_fired := st.shots_fired + ((md.lookup "shots").getD 1),
                    shots_hit := st.shots_hit + ((md.lookup "hits").getD 0),
                    headshots := st.headshots + ((md.lookup "headshots").getD 0),
                    interesting := st.interesting ++
                      [{ evt with interestingReason := some (.highAccuracy
                          (if ((md.lookup "shots").getD 1) > 0 then
                            ((md.lookup "hits").getD 0) / ((md.lookup "shots").getD 1)
                          else 0)) }],
                    mutated := st.mutated ++
                      [{ evt with interestingReason := some (.highAccuracy
                          (if ((md.lookup "shots").getD 1) > 0 then
                            ((md.lookup "hits").getD 0) / ((md.lookup "shots").getD 1)
                          else 0)) }] } from by
              simp only [accumStats]
              rw [if_neg hA, if_pos hW, hM]
              simp only [if_pos hS, if_pos hAcc]] at h
            refine ⟨_, h, ?_, Or.inr ⟨?_, Or.inr
              ⟨Reason.highAccuracy (if ((md.lookup "shots").getD 1) > 0 then
                  ((md.lookup "hits").getD 0) / ((md.lookup "shots").getD 1) else 0), ?_⟩⟩⟩
            · simp only [mutateEvent, if_neg hA, if_pos hW, hM, if_pos hS, if_pos hAcc]
            · simp only [mutateEvent, if_neg hA, if_pos hW, hM, if_pos hS, if_pos hAcc]
            · simp only [mutateEvent, if_neg hA, if_pos hW, hM, if_pos hS, if_pos hAcc]
          · by_cases hHsr : (((md.lookup "headshots").getD 0) /
                max ((md.lookup "hits").getD 0) 1) ≥ HEADSHOT_INTERESTING_THRESHOLD
            · rw [show accumStats (evt :: rest) st =
                  accumStats rest
                    { st with
                      shots_fired := st.shots_fired + ((md.lookup "shots").getD 1),
                      shots_hit := st.shots_hit + ((md.lookup "hits").getD 0),
                      headshots := st.headshots + ((md.lookup "headshots").getD 0),
                      interesting := st.interesting ++
                        [{ evt with interestingReason := some (.highHeadshot
                            (((md.lookup "headshots").getD 0) /
                              max ((md.lookup "hits").getD 0) 1)) }],
                      mutated := st.mutated ++
                        [{ evt with interestingReason := some (.highHeadshot
                            (((md.lookup "headshots").getD 0) /
                              max ((md.lookup "hits").getD 0) 1)) }] } from by
                simp only [accumStats]
                rw [if_neg hA, if_pos hW, hM]
                simp only [if_pos hS, if_neg hAcc, if_pos hHsr]] at h
              refine ⟨_, h, ?_, Or.inr ⟨?_, Or.inr
                ⟨Reason.highHeadshot (((md.lookup "headshots").getD 0) /
                    max ((md.lookup "hits").getD 0) 1), ?_⟩⟩⟩
              · simp only [mutateEvent, if_neg hA, if_pos hW, hM, if_pos hS, if_neg hAcc,
                  if_pos hHsr]
              · simp only [mutateEvent, if_neg hA, if_pos hW, hM, if_pos hS, if_neg hAcc,
                  if_pos hHsr]
              · simp only [mutateEvent, if_neg hA, if_pos hW, hM, if_pos hS, if_neg hAcc,
                  if_pos hHsr]
            · rw [show accumStats (evt :: rest) st =
                  accumStats rest
                    { st with
                      shots_fired := st.shots_fired + ((md.lookup "shots").getD 1),
                      shots_hit := st.shots_hit + ((md.lookup "hits").getD 0),
                      headshots := st.headshots + ((md.lookup "headshots").getD 0),
                      mutated := st.mutated ++ [evt] } from by
                simp only [accumStats]
                rw [if_neg hA, if_pos hW, hM]
                simp only [if_pos hS, if_neg hAcc, if_neg hHsr]] at h
              refine ⟨_, h, ?_, Or.inl rfl⟩
              simp only [mutateEvent, if_neg hA, if_pos hW, hM, if_pos hS, if_neg hAcc,
                if_neg hHsr]
        · rw [show accumStats (evt :: rest) st =
              accumStats rest
                { st with
                  shots_fired := st.shots_fired + ((md.lookup "shots").getD 1),
                  shots_hit := st.shots_hit + ((md.lookup "hits").getD 0),
                  headshots := st.headshots + ((md.lookup "headshots").getD 0),
                  mutated := st.mutated ++ [evt] } from by
            simp only [accumStats]
            rw [if_neg hA, if_pos hW, hM]
            simp only [if_neg hS]] at h
          refine ⟨_, h, ?_, Or.inl rfl⟩
          simp only [mutateEvent, if_neg hA, if_pos hW, hM, if_neg hS]
    · by_cases hP : evt.actionType.getD "" = "PLAYER_ATTACK"
      · rcases hM : resolveMetadata evt.metadata with _ | md
        · rw [show accumStats (evt :: rest) st = .error (st.mutated ++ evt :: rest) from by
            simp only [accumStats]; rw [if_neg hA, if_neg hW, if_pos hP, hM]] at h
          exact absurd h (by simp)
        · by_cases hD : ((md.lookup "damage").getD 0) > HIGH_DAMAGE_THRESHOLD
          · rw [show accumStats (evt :: rest) st =
                accumStats rest
                  { st with
                    interesting := st.interesting ++
                      [{ evt with interestingReason := some (.highDamage
                          ((md.lookup "damage").getD 0)) }],
                    mutated := st.mutated ++
                      [{ evt with interestingReason := some (.highDamage
                          ((md.lookup "damage").getD 0)) }] } from by
              simp only [accumStats]
              rw [if_neg hA, if_neg hW, if_pos hP, hM]
              simp only [if_pos hD]] at h
            refine ⟨_, h, ?_, Or.inr ⟨?_, Or.inr
              ⟨Reason.highDamage ((md.lookup "damage").getD 0), ?_⟩⟩⟩
            · simp only [mutateEvent, if_neg hA, if_neg hW, if_pos hP, hM, if_pos hD]
            · simp only [mutateEvent, if_neg hA, if_neg hW, if_pos hP, hM, if_pos hD]
            · simp only [mutateEvent, if_neg hA, if_neg hW, if_pos hP, hM, if_pos hD]
          · rw [show accumStats (evt :: rest) st =
                accumStats rest { st with mutated := st.mutated ++ [evt] } from by
              simp only [accumStats]
              rw [if_neg hA, if_neg hW, if_pos hP, hM]
              simp only [if_neg hD]] at h
            refine ⟨_, h, ?_, Or.inl rfl⟩
            simp only [mutateEvent, if_neg hA, if_neg hW, if_pos hP, hM, if_neg hD]
      · rw [show accumStats (evt :: rest) st =
            accumStats rest { st with mutated := st.mutated ++ [evt] } from by
          simp only [accumStats]; rw [if_neg hA, if_neg hW, if_neg hP]] at h
        refine ⟨_, h, ?_, Or.inl rfl⟩
        simp only [mutateEvent, if_neg hA, if_neg hW, if_neg hP]

theorem accumStats_mutated : ∀ (events : List Event) (st st' : Stats),
    accumStats events st = .ok st' →
    st'.mutated = st.mutated ++ events.map mutateEvent := by
  intro events
  induction events with
  | nil =>
    intro st st' h
    simp only [accumStats, Except.ok.injEq] at h
    subst h
    simp
  | cons evt rest ih =>
    intro st st' h
    obtain ⟨stMid, hMid, hm, -⟩ := accumStats_step evt rest st st' h
    rw [ih stMid st' hMid, hm]
    simp

theorem accumStats_interesting_sublist : ∀ (events : List Event) (st st' : Stats),
    accumStats events st = .ok st' →
    ∃ di dm : List Event, st'.interesting = st.interesting ++ di ∧
      st'.mutated = st.mutated ++ dm ∧ di.Sublist dm := by
  intro events
  induction events with
  | nil =>
    intro st st' h
    simp only [accumStats, Except.ok.injEq] at h
    subst h
    exact ⟨[], [], by simp, by simp, List.Sublist.refl []⟩
  | cons evt rest ih =>
    intro st st' h
    obtain ⟨stMid, hMid, hm, hi⟩ := accumStats_step evt rest st st' h
    obtain ⟨di, dm, hdi, hdm, hsub⟩ := ih stMid st' hMid
    rcases hi with hi | ⟨hi, -⟩
    · refine ⟨di, mutateEvent evt :: dm, ?_, ?_, hsub.cons _⟩
      · rw [hdi, hi]
      · rw [hdm, hm]; simp
    · refine ⟨mutateEvent evt :: di, mutateEvent evt :: dm, ?_, ?_, hsub.cons₂ _⟩
      · rw [hdi, hi]; simp
      · rw [hdm, hm]; simp

theorem mutateEvent_actionType (evt : Event) :
    (mutateEvent evt).actionType = evt.actionType := by
  simp only [mutateEvent]
  repeat' split
  all_goals rfl

theorem accumStats_interesting_orig : ∀ (events : List Event) (st st' : Stats),
    accumStats events st = .ok st' →
    ∀ e, e ∈ st'.interesting → e ∈ st.interesting ∨
      (e.actionType.getD "" ∈ ALWAYS_STORE_EVENTS ∨ ∃ r, e.interestingReason = some r) := by
  intro events
  induction events with
  | nil =>
    intro st st' h e he
    simp only [accumStats, Except.ok.injEq] at h
    subst h
    exact Or.inl he
  | cons evt rest ih =>
    intro st st' h e he
    obtain ⟨stMid, hMid, -, hi⟩ := accumStats_step evt rest st st' h
    rcases ih stMid st' hMid e he with hmem | hp
    · rcases hi with hi | ⟨hi, hprop⟩
      · rw [hi] at hmem
        exact Or.inl hmem
      · rw [hi, List.mem_append, List.mem_singleton] at hmem
        rcases hmem with hmem | hmem
        · exact Or.inl hmem
        · subst hmem
          exact Or.inr hprop
    · exact Or.inr hp

/-- C9: `extract_features` mutates its input: on success the caller's
event list is the pointwise `mutateEvent` image of the input, which writes
the `_interesting_reason` key into the event dict itself exactly for the
tagging branches; every `WEAPON_FIRED` event that met the interestingness
conditions and every over-threshold `PLAYER_ATTACK` event carries the key
(as does every interesting-listed event of those two action types); yet
the item `store_events` persists is insensitive to the key and holds
exactly the fixed attribute set
`pk, sk, eventId, owner, playerId, actionType, timestamp, sessionId,
metadata, ttl`. -/
theorem C9_inplace_mutation :
    (∀ events existing_state f ie me,
      extract_features events existing_state = .ok (f, ie, me) →
      me = events.map mutateEvent ∧
      (∀ e ∈ ie,
        (e.actionType.getD "" = "WEAPON_FIRED" ∨ e.actionType.getD "" = "PLAYER_ATTACK") →
        ∃ r, e.interestingReason = some r)) ∧
    (∀ evt md, evt.actionType.getD "" = "WEAPON_FIRED" →
      resolveMetadata evt.metadata = some md →
      ((md.lookup "shots").getD 1) ≥ MIN_SHOTS_FOR_INTERESTING →
      ((if ((md.lookup "shots").getD 1) > 0 then
          ((md.lookup "hits").getD 0) / ((md.lookup "shots").getD 1) else 0) ≥
            ACCURACY_INTERESTING_THRESHOLD ∨
        (((md.lookup "headshots").getD 0) / max ((md.lookup "hits").getD 0) 1) ≥
          HEADSHOT_INTERESTING_THRESHOLD) →
      (mutateEvent evt).interestingReason ≠ none) ∧
    (∀ evt md, evt.actionType.getD "" = "PLAYER_ATTACK" →
      resolveMetadata evt.metadata = some md →
      ((md.lookup "damage").getD 0) > HIGH_DAMAGE_THRESHOLD →
      (mutateEvent evt).interestingReason =
        some (.highDamage ((md.lookup "damage").getD 0))) ∧
    (∀ owner now ttl u evt,
      storeItem owner now ttl u evt =
        storeItem owner now ttl u { evt with interestingReason := none } ∧
      (storeItem owner now ttl u evt).pk = owner ++ "#" ++ evt.playerId.getD "unknown" ∧
      (storeItem owner now ttl u evt).sk =
        toString (evt.timestamp.getD now) ++ "#" ++ (storeItem owner now ttl u evt).eventId ∧
      (storeItem owner now ttl u evt).owner = owner ∧
      (storeItem owner now ttl u evt).playerId = evt.playerId.getD "unknown" ∧
      (storeItem owner now ttl u evt).actionType = evt.actionType.getD "UNKNOWN" ∧
      (storeItem owner now ttl u evt).timestamp = evt.timestamp.getD now ∧
      (storeItem owner now ttl u evt).sessionId = evt.sessionId ∧
      (storeItem owner now ttl u evt).metadata = evt.metadata ∧
      (storeItem owner now ttl u evt).ttl = ttl) := by
  refine ⟨?_, ?_, ?_, ?_⟩
  · intro events existing_state f ie me h
    simp only [extract_features] at h
    cases hacc : accumStats events ({} : Stats) with
    | error e =>
      rw [hacc] at h
      exact absurd h (by simp)
    | ok st =>
      rw [hacc] at h
      simp only [Except.ok.injEq, Prod.mk.injEq] at h
      obtain ⟨-, hie, hme⟩ := h
      constructor
      · rw [← hme]
        have := accumStats_mutated events {} st hacc
        simpa using this
      · intro e he hwp
        rw [← hie] at he
        rcases accumStats_interesting_orig events {} st hacc e he with hmem | hp | hr
        · exact absurd hmem (by simp)
        · rcases hwp with hw | hw <;> rw [hw] at hp <;> exact absurd hp (by decide)
        · exact hr
  · intro evt md hW hM hS hor
    have hA : ¬ (evt.actionType.getD "") ∈ ALWAYS_STORE_EVENTS := by
      rw [hW]; decide
    by_cases hAcc : (if ((md.lookup "shots").getD 1) > 0 then
        ((md.lookup "hits").getD 0) / ((md.lookup "shots").getD 1) else 0) ≥
        ACCURACY_INTERESTING_THRESHOLD
    · simp [mutateEvent, if_neg hA, if_pos hW, hM, if_pos hS, if_pos hAcc]
    · rcases hor with hor | hor
      · exact absurd hor hAcc
      · simp [mutateEvent, if_neg hA, if_pos hW, hM, if_pos hS, if_neg hAcc, if_pos hor]
  · intro evt md hP hM hD
    have hA : ¬ (evt.actionType.getD "") ∈ ALWAYS_STORE_EVENTS := by
      rw [hP]; decide
    have hW : ¬ evt.actionType.getD "" = "WEAPON_FIRED" := by
      rw [hP]; decide
    simp [mutateEvent, if_neg hA, if_neg hW, if_pos hP, hM, if_pos hD]
  · intro owner now ttl u evt
    exact ⟨rfl, rfl, rfl, rfl, rfl, rfl, rfl, rfl, rfl, rfl⟩

/-- A `WEAPON_FIRED` event meeting the high-accuracy tagging bar. -/
def evC9a : Event :=
  { playerId := some "p1"
    actionType := some "WEAPON_FIRED"
    metadata := some (.dict [("shots", 10), ("hits", 8)]) }

/-- A `PLAYER_ATTACK` event above the damage threshold. -/
def evC9b : Event :=
  { playerId := some "p1"
    actionType := some "PLAYER_ATTACK"
    metadata := some (.dict [("damage", 150)]) }

/-- Loop state after processing the two C9 events. -/
def stC9 : Stats :=
  { shots_fired := 10
    shots_hit := 8
    headshots := 0
    kills := 0
    interesting := [{ evC9a with interestingReason := some (.highAccuracy (4/5)) },
                    { evC9b with interestingReason := some (.highDamage 150) }]
    mutated := [{ evC9a with interestingReason := some (.highAccuracy (4/5)) },
                { evC9b with interestingReason := some (.highDamage 150) }] }

/-- C9, witness: on a concrete batch the mutated caller list is the
pointwise `mutateEvent` image and every tagged interesting event carries a
reason. -/
theorem C9_inplace_mutation_witness :
    ∃ f ie me, extract_features [evC9a, evC9b] ({} : PItem) = Except.ok (f, ie, me) ∧
      me = [evC9a, evC9b].map mutateEvent ∧
      (∀ e ∈ ie,
        (e.actionType.getD "" = "WEAPON_FIRED" ∨ e.actionType.getD "" = "PLAYER_ATTACK") →
        ∃ r, e.interestingReason = some r) := by
  have hacc : accumStats [evC9a, evC9b] ({} : Stats) = .ok stC9 := by
    simp [accumStats, evC9a, evC9b, stC9, resolveMetadata, ALWAYS_STORE_EVENTS,
      MIN_SHOTS_FOR_INTERESTING, ACCURACY_INTERESTING_THRESHOLD,
      HEADSHOT_INTERESTING_THRESHOLD, HIGH_DAMAGE_THRESHOLD, List.lookup]
    norm_num
  have hok : extract_features [evC9a, evC9b] ({} : PItem) =
      .ok (mergeFeatures stC9 {}, stC9.interesting, stC9.mutated) := by
    simp only [extract_features, hacc]
  obtain ⟨hme, hie⟩ := C9_inplace_mutation.1 [evC9a, evC9b] {} _ _ _ hok
  exact ⟨_, _, _, hok, hme, hie⟩

/-- Second-batch event of scenario S4: `WEAPON_FIRED {shots:10, hits:6}`. -/
def evS4b : Event :=
  { playerId := some "p1"
    actionType := some "WEAPON_FIRED"
    metadata := some (.dict [("shots", 10), ("hits", 6)]) }

/-- Loop state after batch 1 of S4 (`[evC9a]`, shots 10 hits 8). -/
def stS4a : Stats :=
  { shots_fired := 10
    shots_hit := 8
    headshots := 0
    kills := 0
    interesting := [{ evC9a with interestingReason := some (.highAccuracy (4/5)) }]
    mutated := [{ evC9a with interestingReason := some (.highAccuracy (4/5)) }] }

/-- Loop state after batch 2 of S4 (`[evS4b]`, shots 10 hits 6, untagged). -/
def stS4b : Stats :=
  { shots_fired := 10
    shots_hit := 6
    headshots := 0
    kills := 0
    interesting := []
    mutated := [evS4b] }

/-- Features after batch 1 of S4, from an empty prior. -/
noncomputable def fS4a : Features := mergeFeatures stS4a {}

/-- Features after batch 2 of S4, with batch 1's persisted features record
as prior state. -/
noncomputable def fS4b : Features := mergeFeatures stS4b (features_item "o" "p1" 0 fS4a)

/-- C3: the Welford accuracy state is updated at most once per batch,
exactly when the batch's `shots_fired > 0`, by
`n' = n+1`, `mean' = mean + (x-mean)/n'`, `M2' = M2 + (x-mean)(x-mean')`,
`stddev = sqrt(M2'/n')` if `n' > 1` else `0`, with
`x = shots_hit/shots_fired`; when `shots_fired` is not positive the four
fields are carried over from the prior state.  Concretely, two successive
single-event batches `shots:10,hits:8` then `shots:10,hits:6` (the second
taking the first's persisted features record as prior) yield
`accuracySampleCount = 2`, `accuracyMean = 0.7`, `accuracyM2 = 0.02`,
`accuracyStdDev = 0.1`. -/
theorem C3_welford :
    (∀ (events : List Event) (ex : PItem) (st : Stats),
      accumStats events {} = .ok st →
      (extract_features events ex = .ok (mergeFeatures st ex, st.interesting, st.mutated)) ∧
      (st.shots_fired > 0 →
        (mergeFeatures st ex).accuracySampleCount =
          pyInt ((PItem.accuracySampleCount ex).getD 0 + 1) ∧
        (mergeFeatures st ex).accuracyMean =
          (PItem.accuracyMean ex).getD 0 +
            (st.shots_hit / st.shots_fired - (PItem.accuracyMean ex).getD 0) /
              ((PItem.accuracySampleCount ex).getD 0 + 1) ∧
        (mergeFeatures st ex).accuracyM2 =
          (PItem.accuracyM2 ex).getD 0 +
            (st.shots_hit / st.shots_fired - (PItem.accuracyMean ex).getD 0) *
              (st.shots_hit / st.shots_fired -
                ((PItem.accuracyMean ex).getD 0 +
                  (st.shots_hit / st.shots_fired - (PItem.accuracyMean ex).getD 0) /
                    ((PItem.accuracySampleCount ex).getD 0 + 1))) ∧
        (mergeFeatures st ex).accuracyStdDev =
          (if (PItem.accuracySampleCount ex).getD 0 + 1 > 1 then
            Real.sqrt ((((mergeFeatures st ex).accuracyM2 /
              ((PItem.accuracySampleCount ex).getD 0 + 1) : ℚ)) : ℝ)
          else 0)) ∧
      (¬ st.shots_fired > 0 →
        (mergeFeatures st ex).accuracySampleCount =
          pyInt ((PItem.accuracySampleCount ex).getD 0) ∧
        (mergeFeatures st ex).accuracyMean = (PItem.accuracyMean ex).getD 0 ∧
        (mergeFeatures st ex).accuracyM2 = (PItem.accuracyM2 ex).getD 0 ∧
        (mergeFeatures st ex).accuracyStdDev = (PItem.accuracyStdDev ex).getD 0)) ∧
    (extract_features [evC9a] ({} : PItem) = .ok (fS4a, stS4a.interesting, stS4a.mutated) ∧
      extract_features [evS4b] (features_item "o" "p1" 0 fS4a) =
        .ok (fS4b, [], [evS4b]) ∧
      fS4b.accuracySampleCount = 2 ∧
      fS4b.accuracyMean = 7/10 ∧
      fS4b.accuracyM2 = 1/50 ∧
      fS4b.accuracyStdDev = (1/10 : ℝ)) := by
  have hmain : ∀ (events : List Event) (ex : PItem) (st : Stats),
      accumStats events {} = .ok st →
      (extract_features events ex = .ok (mergeFeatures st ex, st.interesting, st.mutated)) ∧
      (st.shots_fired > 0 →
        (mergeFeatures st ex).accuracySampleCount =
          pyInt ((PItem.accuracySampleCount ex).getD 0 + 1) ∧
        (mergeFeatures st ex).accuracyMean =
          (PItem.accuracyMean ex).getD 0 +
            (st.shots_hit / st.shots_fired - (PItem.accuracyMean ex).getD 0) /
              ((PItem.accuracySampleCount ex).getD 0 + 1) ∧
        (mergeFeatures st ex).accuracyM2 =
          (PItem.accuracyM2 ex).getD 0 +
            (st.shots_hit / st.shots_fired - (PItem.accuracyMean ex).getD 0) *
              (st.shots_hit / st.shots_fired -
                ((PItem.accuracyMean ex).getD 0 +
                  (st.shots_hit / st.shots_fired - (PItem.accuracyMean ex).getD 0) /
                    ((PItem.accuracySampleCount ex).getD 0 + 1))) ∧
        (mergeFeatures st ex).accuracyStdDev =
          (if (PItem.accuracySampleCount ex).getD 0 + 1 > 1 then
            Real.sqrt ((((mergeFeatures st ex).accuracyM2 /
              ((PItem.accuracySampleCount ex).getD 0 + 1) : ℚ)) : ℝ)
          else 0)) ∧
      (¬ st.shots_fired > 0 →
        (mergeFeatures st ex).accuracySampleCount =
          pyInt ((PItem.accuracySampleCount ex).getD 0) ∧
        (mergeFeatures st ex).accuracyMean = (PItem.accuracyMean ex).getD 0 ∧
        (mergeFeatures st ex).accuracyM2 = (PItem.accuracyM2 ex).getD 0 ∧
        (mergeFeatures st ex).accuracyStdDev = (PItem.accuracyStdDev ex).getD 0) := by
    intro events ex st hacc
    refine ⟨?_, ?_, ?_⟩
    · simp only [extract_features, hacc]
    · intro hpos
      simp [mergeFeatures, if_pos hpos]
    · intro hneg
      simp [mergeFeatures, if_neg hneg]
  refine ⟨hmain, ?_⟩
  have hacc1 : accumStats [evC9a] ({} : Stats) = .ok stS4a := by
    simp [accumStats, evC9a, stS4a, resolveMetadata, ALWAYS_STORE_EVENTS,
      MIN_SHOTS_FOR_INTERESTING, ACCURACY_INTERESTING_THRESHOLD,
      HEADSHOT_INTERESTING_THRESHOLD, List.lookup]
    try norm_num
  have hacc2 : accumStats [evS4b] ({} : Stats) = .ok stS4b := by
    simp [accumStats, evS4b, stS4b, resolveMetadata, ALWAYS_STORE_EVENTS,
      MIN_SHOTS_FOR_INTERESTING, ACCURACY_INTERESTING_THRESHOLD,
      HEADSHOT_INTERESTING_THRESHOLD, List.lookup]
    try norm_num
  have hf1 : fS4a =
      { totalShots := 10
        totalHits := 8
        totalHeadshots := 0
        totalKills := 0
        accuracy := 4/5
        headshotRatio := 0
        accuracySampleCount := 1
        accuracyMean := 4/5
        accuracyM2 := 0
        accuracyStdDev := (0 : ℝ)
        risk_score := 30 } := by
    simp [fS4a, mergeFeatures, stS4a, pyInt, ACCURACY_RISK_THRESHOLD, HEADSHOT_RISK_THRESHOLD]
    try norm_num [min_def]
  refine ⟨?_, ?_, ?_, ?_, ?_, ?_⟩
  · have h := (hmain [evC9a] {} stS4a hacc1).1
    simpa [fS4a] using h
  · have h := (hmain [evS4b] (features_item "o" "p1" 0 fS4a) stS4b hacc2).1
    simpa [fS4b, stS4b] using h
  · simp [fS4b, mergeFeatures, stS4b, features_item, hf1, pyInt]
    try norm_num
  · simp [fS4b, mergeFeatures, stS4b, features_item, hf1, pyInt]
    try norm_num
  · simp [fS4b, mergeFeatures, stS4b, features_item, hf1, pyInt]
    try norm_num
  · have hm2 : (mergeFeatures stS4b (features_item "o" "p1" 0 fS4a)).accuracyM2 = 1/50 := by
      simp [mergeFeatures, stS4b, features_item, hf1, pyInt]
      norm_num
    have hn : (PItem.accuracySampleCount (features_item "o" "p1" 0 fS4a)).getD 0 = 1 := by
      simp [features_item, hf1]
    have hsd := ((hmain [evS4b] (features_item "o" "p1" 0 fS4a) stS4b hacc2).2.1
      (by norm_num [stS4b])).2.2.2
    have hsd' : fS4b.accuracyStdDev =
        (if (PItem.accuracySampleCount (features_item "o" "p1" 0 fS4a)).getD 0 + 1 > 1 then
          Real.sqrt ((((mergeFeatures stS4b (features_item "o" "p1" 0 fS4a)).accuracyM2 /
            ((PItem.accuracySampleCount (features_item "o" "p1" 0 fS4a)).getD 0 + 1) : ℚ)) : ℝ)
        else 0) := hsd
    rw [hsd', hm2, hn, if_pos (by norm_num : (1 : ℚ) + 1 > 1)]
    rw [show (((1/50 / ((1 : ℚ) + 1) : ℚ)) : ℝ) = (1/10 : ℝ)^2 by push_cast; norm_num]
    exact Real.sqrt_sq (by norm_num : (0:ℝ) ≤ 1/10)

/-- C3, witness: the Welford characterization applied to the concrete
batch `[evS4b]` over an empty prior. -/
theorem C3_welford_witness :
    extract_features [evS4b] ({} : PItem) =
      .ok (mergeFeatures stS4b {}, stS4b.interesting, stS4b.mutated) ∧
    (mergeFeatures stS4b ({} : PItem)).accuracySampleCount =
      pyInt ((PItem.accuracySampleCount ({} : PItem)).getD 0 + 1) := by
  have hacc2 : accumStats [evS4b] ({} : Stats) = .ok stS4b := by
    simp [accumStats, evS4b, stS4b, resolveMetadata, ALWAYS_STORE_EVENTS,
      MIN_SHOTS_FOR_INTERESTING, ACCURACY_INTERESTING_THRESHOLD,
      HEADSHOT_INTERESTING_THRESHOLD, List.lookup]
    try norm_num
  have h := C3_welford.1 [evS4b] {} stS4b hacc2
  exact ⟨h.1, (h.2.1 (by norm_num [stS4b])).1⟩

/-- Second-batch event for the C1 run: `WEAPON_FIRED {shots:4, hits:1}`
(below every tagging bar). -/
def wfC1b : Event :=
  { playerId := some "p1"
    actionType := some "WEAPON_FIRED"
    metadata := some (.dict [("shots", 4), ("hits", 1)]) }

/-- Loop state after the C1 second batch. -/
def stC1b : Stats :=
  { shots_fired := 4
    shots_hit := 1
    headshots := 0
    kills := 0
    interesting := []
    mutated := [wfC1b] }

/-- C1, evaluating the code at the failing input: starting from an empty
store, a first batch of one `WEAPON_FIRED {shots:10}` event persists
`totalShots = 10` to the FEATURES record; a second batch of one
`WEAPON_FIRED {shots:4}` event then persists `totalShots = 4 < 10`:
`update_player_states` reads only the PROFILE record (sk `'PROFILE'`),
which carries no counters, so the prior totals seen by the extractor are
always 0 and the persisted counters are not monotonic across batches. -/
theorem C1_counters_reset :
    ((update_player_states [evC9a] "o" (fun _ => none) {} 0).table
        ("o#p1", "FEATURES")).bind PItem.totalShots = some 10 ∧
    ((update_player_states [wfC1b] "o"
        (update_player_states [evC9a] "o" (fun _ => none) {} 0).table {} 0).table
        ("o#p1", "FEATURES")).bind PItem.totalShots = some 4 ∧
    (4 : ℚ) < 10 := by
  have hpid1 : evC9a.playerId.getD "unknown" = "p1" := rfl
  have hpid2 : wfC1b.playerId.getD "unknown" = "p1" := rfl
  have hacc1 : accumStats [evC9a] ({} : Stats) = .ok stS4a := by
    simp [accumStats, evC9a, stS4a, resolveMetadata, ALWAYS_STORE_EVENTS,
      MIN_SHOTS_FOR_INTERESTING, ACCURACY_INTERESTING_THRESHOLD,
      HEADSHOT_INTERESTING_THRESHOLD, List.lookup]
    try norm_num
  have hx1 : extract_features [evC9a] ({} : PItem) =
      .ok (fS4a, stS4a.interesting, stS4a.mutated) := by
    simp only [extract_features, hacc1, fS4a]
  have ht1f : (update_player_states [evC9a] "o" (fun _ => none) {} 0).table
      ("o#p1", "FEATURES") = some (features_item "o" "p1" 0 fS4a) := by
    simp [update_player_states, groupByPlayer, addToGroup, upsStep, hx1, hpid1]
  have ht1p : (update_player_states [evC9a] "o" (fun _ => none) {} 0).table
      ("o#p1", "PROFILE") = some (profile_item "o" "p1" 0 {} fS4a 1) := by
    simp [update_player_states, groupByPlayer, addToGroup, upsStep, hx1, hpid1]
  have haccb : accumStats [wfC1b] ({} : Stats) = .ok stC1b := by
    simp [accumStats, wfC1b, stC1b, resolveMetadata, ALWAYS_STORE_EVENTS,
      MIN_SHOTS_FOR_INTERESTING, ACCURACY_INTERESTING_THRESHOLD,
      HEADSHOT_INTERESTING_THRESHOLD, List.lookup]
    try norm_num
  have hxb : extract_features [wfC1b] (profile_item "o" "p1" 0 {} fS4a 1) =
      .ok (mergeFeatures stC1b (profile_item "o" "p1" 0 {} fS4a 1),
        stC1b.interesting, stC1b.mutated) := by
    simp only [extract_features, haccb]
  have hstep2 : ∀ tbl : PlayersTable,
      tbl ("o#p1", "PROFILE") = some (profile_item "o" "p1" 0 {} fS4a 1) →
      (update_player_states [wfC1b] "o" tbl {} 0).table ("o#p1", "FEATURES") =
        some (features_item "o" "p1" 0
          (mergeFeatures stC1b (profile_item "o" "p1" 0 {} fS4a 1))) := by
    intro tbl htbl
    simp [update_player_states, groupByPlayer, addToGroup, upsStep, hxb, htbl, hpid2]
  have hts : (mergeFeatures stC1b (profile_item "o" "p1" 0 {} fS4a 1)).totalShots = 4 := by
    simp [mergeFeatures, stC1b, profile_item, pyInt]
    try norm_num
  have hf1 : fS4a =
      { totalShots := 10
        totalHits := 8
        totalHeadshots := 0
        totalKills := 0
        accuracy := 4/5
        headshotRatio := 0
        accuracySampleCount := 1
        accuracyMean := 4/5
        accuracyM2 := 0
        accuracyStdDev := (0 : ℝ)
        risk_score := 30 } := by
    simp [fS4a, mergeFeatures, stS4a, pyInt, ACCURACY_RISK_THRESHOLD,
      HEADSHOT_RISK_THRESHOLD]
    try norm_num [min_def]
  refine ⟨?_, ?_, by norm_num⟩
  · rw [ht1f]
    simp [features_item, hf1]
  · rw [hstep2 _ ht1p]
    simp [features_item, hts]

theorem mutateEvent_playerId (evt : Event) :
    (mutateEvent evt).playerId = evt.playerId := by
  simp only [mutateEvent]
  repeat' split
  all_goals rfl

theorem upsStep_getfail (owner : String) (faults : Faults) (now : ℤ) (acc : UPSAcc)
    (g : String × List Event)
    (h : faults.getProfileFails (owner ++ "#" ++ g.1) = true) :
    upsStep owner faults now acc g =
      { acc with mutGroups := acc.mutGroups ++ [(g.1, g.2)] } := by
  simp only [upsStep, h, if_true]

theorem upsStep_interesting_ok (owner : String) (faults : Faults) (now : ℤ) (acc : UPSAcc)
    (g : String × List Event) (st : Stats)
    (hget : faults.getProfileFails (owner ++ "#" ++ g.1) = false)
    (hok : accumStats g.2 {} = .ok st) :
    (upsStep owner faults now acc g).interesting = acc.interesting ++ st.interesting := by
  simp only [upsStep, hget, Bool.false_eq_true, if_false, extract_features, hok]
  split
  · rfl
  · split
    · rfl
    · rfl

theorem upsStep_interesting_cases (owner : String) (faults : Faults) (now : ℤ) (acc : UPSAcc)
    (g : String × List Event) :
    (upsStep owner faults now acc g).interesting = acc.interesting ∨
    (∃ st, faults.getProfileFails (owner ++ "#" ++ g.1) = false ∧
      accumStats g.2 {} = .ok st ∧
      (upsStep owner faults now acc g).interesting = acc.interesting ++ st.interesting) := by
  cases hget : faults.getProfileFails (owner ++ "#" ++ g.1) with
  | true => left; rw [upsStep_getfail owner faults now acc g hget]
  | false =>
    cases hacc : accumStats g.2 {} with
    | error evts =>
      left
      simp only [upsStep, hget, Bool.false_eq_true, if_false, extract_features, hacc]
    | ok st =>
      exact Or.inr ⟨st, rfl, rfl, upsStep_interesting_ok owner faults now acc g st hget hacc⟩

theorem upsStep_updates_cases (owner : String) (faults : Faults) (now : ℤ) (acc : UPSAcc)
    (g : String × List Event) :
    (upsStep owner faults now acc g).updates = acc.updates ∨
    (∃ feats st, (upsStep owner faults now acc g).updates = acc.updates ++ [(g.1, feats)] ∧
      faults.getProfileFails (owner ++ "#" ++ g.1) = false ∧
      faults.putProfileFails (owner ++ "#" ++ g.1) = false ∧
      faults.putFeaturesFails (owner ++ "#" ++ g.1) = false ∧
      accumStats g.2 {} = .ok st) := by
  cases hget : faults.getProfileFails (owner ++ "#" ++ g.1) with
  | true => left; rw [upsStep_getfail owner faults now acc g hget]
  | false =>
    cases hacc : accumStats g.2 {} with
    | error evts =>
      left
      simp only [upsStep, hget, Bool.false_eq_true, if_false, extract_features, hacc]
    | ok st =>
      cases hpp : faults.putProfileFails (owner ++ "#" ++ g.1) with
      | true =>
        left
        simp only [upsStep, hget, Bool.false_eq_true, if_false, extract_features, hacc, hpp,
          if_true]
      | false =>
        cases hpf : faults.putFeaturesFails (owner ++ "#" ++ g.1) with
        | true =>
          left
          simp only [upsStep, hget, Bool.false_eq_true, if_false, extract_features, hacc, hpp,
            hpf, if_true]
        | false =>
          right
          have hupd : (upsStep owner faults now acc g).updates = acc.updates ++
              [(g.1, mergeFeatures st
                ((acc.table (owner ++ "#" ++ g.1, "PROFILE")).getD {}))] := by
            simp only [upsStep, hget, Bool.false_eq_true, if_false, extract_features, hacc,
              hpp, hpf]
          exact ⟨_, st, hupd, rfl, rfl, rfl, rfl⟩

theorem addToGroup_keys (acc : List (String × List Event)) (pid : String) (evt : Event) :
    (addToGroup acc pid evt).map Prod.fst =
      (if pid ∈ acc.map Prod.fst then acc.map Prod.fst else acc.map Prod.fst ++ [pid]) := by
  induction acc with
  | nil => simp [addToGroup]
  | cons hd tl ih =>
    rcases hd with ⟨p, es⟩
    by_cases hp : p = pid
    · simp [addToGroup, hp]
    · simp only [addToGroup, if_neg hp, List.map_cons, ih]
      by_cases hmem : pid ∈ tl.map Prod.fst
      · rw [if_pos hmem, if_pos]
        exact List.mem_cons_of_mem _ hmem
      · rw [if_neg hmem, if_neg]
        · simp
        · intro hc
          rcases List.mem_cons.mp hc with hc | hc
          · exact hp hc.symm
          · exact hmem hc

theorem groupByPlayer_keys_nodup (events : List Event) :
    ((groupByPlayer events).map Prod.fst).Nodup := by
  suffices h : ∀ (l : List Event) (acc : List (String × List Event)),
      (acc.map Prod.fst).Nodup →
      ((l.foldl (fun a evt => addToGroup a (evt.playerId.getD "unknown") evt) acc).map
        Prod.fst).Nodup by
    exact h events [] (by simp)
  intro l
  induction l with
  | nil => intro acc hacc; simpa using hacc
  | cons evt rest ih =>
    intro acc hacc
    refine ih _ ?_
    rw [addToGroup_keys]
    split
    · exact hacc
    · next hnm => exact List.Nodup.append hacc (by simp) (by simpa using hnm)

theorem groupByPlayer_mem_playerId (events : List Event) :
    ∀ p es, (p, es) ∈ groupByPlayer events →
      ∀ e ∈ es, e.playerId.getD "unknown" = p := by
  have haddinv : ∀ (a : List (String × List Event)) (pid : String) (ev : Event),
      ev.playerId.getD "unknown" = pid →
      (∀ p es, (p, es) ∈ a → ∀ e ∈ es, e.playerId.getD "unknown" = p) →
      ∀ p es, (p, es) ∈ addToGroup a pid ev → ∀ e ∈ es, e.playerId.getD "unknown" = p := by
    intro a
    induction a with
    | nil =>
      intro pid ev hev _ p es hmem e he
      simp only [addToGroup, List.mem_singleton, Prod.mk.injEq] at hmem
      obtain ⟨rfl, rfl⟩ := hmem
      simp only [List.mem_singleton] at he
      subst he
      exact hev
    | cons hd tl iha =>
      rcases hd with ⟨q, qs⟩
      intro pid ev hev hinv p es hmem e he
      by_cases hq : q = pid
      · simp only [addToGroup, if_pos hq, List.mem_cons, Prod.mk.injEq] at hmem
        rcases hmem with ⟨rfl, rfl⟩ | hmem
        · rcases List.mem_append.mp he with he | he
          · exact hinv p qs (List.mem_cons_self _ _) e he
          · simp only [List.mem_singleton] at he
            subst he
            rw [hev, hq]
        · exact hinv p es (List.mem_cons_of_mem _ hmem) e he
      · simp only [addToGroup, if_neg hq, List.mem_cons, Prod.mk.injEq] at hmem
        rcases hmem with ⟨rfl, rfl⟩ | hmem
        · exact hinv p es (List.mem_cons_self _ _) e he
        · exact iha pid ev hev
            (fun p' es' hm' => hinv p' es' (List.mem_cons_of_mem _ hm')) p es hmem e he
  suffices h : ∀ (l : List Event) (acc : List (String × List Event)),
      (∀ p es, (p, es) ∈ acc → ∀ e ∈ es, e.playerId.getD "unknown" = p) →
      ∀ p es, (p, es) ∈ (l.foldl (fun a evt => addToGroup a (evt.playerId.getD "unknown") evt)
        acc) → ∀ e ∈ es, e.playerId.getD "unknown" = p by
    exact h events [] (by simp)
  intro l
  induction l with
  | nil => intro acc hacc; simpa using hacc
  | cons evt rest ih =>
    intro acc hacc
    exact ih _ (haddinv acc (evt.playerId.getD "unknown") evt rfl hacc)

theorem nodup_keys_eq_of_mem {β : Type} :
    ∀ (l : List (String × β)) (pid : String) (b b' : β),
      ((l.map Prod.fst).Nodup) → (pid, b) ∈ l → (pid, b') ∈ l → b = b' := by
  intro l
  induction l with
  | nil => intro pid b b' _ h; exact absurd h (List.not_mem_nil _)
  | cons hd tl ih =>
    intro pid b b' hnd h1 h2
    simp only [List.map_cons, List.nodup_cons] at hnd
    rcases List.mem_cons.mp h1 with h1 | h1 <;> rcases List.mem_cons.mp h2 with h2 | h2
    · rw [← h1, Prod.mk.injEq] at h2
      exact h2.2.symm
    · exfalso
      apply hnd.1
      rw [← h1]
      simpa using List.mem_map_of_mem Prod.fst h2
    · exfalso
      apply hnd.1
      rw [← h2]
      simpa using List.mem_map_of_mem Prod.fst h1
    · exact ih pid b b' hnd.2 h1 h2

theorem ups_foldl_interesting_mono (owner : String) (faults : Faults) (now : ℤ) :
    ∀ (gs : List (String × List Event)) (acc : UPSAcc),
      ∃ d, (gs.foldl (upsStep owner faults now) acc).interesting = acc.interesting ++ d := by
  intro gs
  induction gs with
  | nil => intro acc; exact ⟨[], by simp⟩
  | cons g rest ih =>
    intro acc
    obtain ⟨d1, hd1⟩ := ih (upsStep owner faults now acc g)
    rcases upsStep_interesting_cases owner faults now acc g with hc | ⟨st, -, -, hc⟩
    · exact ⟨d1, by simpa [hc] using hd1⟩
    · exact ⟨st.interesting ++ d1, by simp only [List.foldl_cons, hd1, hc, List.append_assoc]⟩

theorem ups_foldl_interesting_contains (owner : String) (faults : Faults) (now : ℤ) :
    ∀ (gs : List (String × List Event)) (acc : UPSAcc) (pid : String) (es : List Event)
      (st : Stats),
      (pid, es) ∈ gs →
      faults.getProfileFails (owner ++ "#" ++ pid) = false →
      accumStats es {} = .ok st →
      ∀ e ∈ st.interesting, e ∈ (gs.foldl (upsStep owner faults now) acc).interesting := by
  intro gs
  induction gs with
  | nil => intro acc pid es st h; exact absurd h (List.not_mem_nil _)
  | cons g rest ih =>
    intro acc pid es st hmem hget hok e he
    rcases List.mem_cons.mp hmem with hmem | hmem
    · have hgi : (upsStep owner faults now acc g).interesting =
          acc.interesting ++ st.interesting := by
        rw [← hmem]
        exact upsStep_interesting_ok owner faults now acc (pid, es) st hget hok
      obtain ⟨d, hd⟩ := ups_foldl_interesting_mono owner faults now rest
        (upsStep owner faults now acc g)
      rw [List.foldl_cons, hd, hgi]
      simp only [List.append_assoc, List.mem_append]
      exact Or.inr (Or.inl he)
    · exact ih (upsStep owner faults now acc g) pid es st hmem hget hok e he

theorem ups_foldl_updates_notmem (owner : String) (faults : Faults) (now : ℤ) :
    ∀ (gs : List (String × List Event)) (acc : UPSAcc) (pid : String),
      pid ∉ acc.updates.map Prod.fst →
      (∀ es, (pid, es) ∈ gs →
        faults.getProfileFails (owner ++ "#" ++ pid) = true ∨
        (∃ evts, accumStats es {} = .error evts) ∨
        faults.putProfileFails (owner ++ "#" ++ pid) = true ∨
        faults.putFeaturesFails (owner ++ "#" ++ pid) = true) →
      pid ∉ ((gs.foldl (upsStep owner faults now) acc).updates).map Prod.fst := by
  intro gs
  induction gs with
  | nil => intro acc pid h _; simpa using h
  | cons g rest ih =>
    intro acc pid hnot hfail
    refine ih (upsStep owner faults now acc g) pid ?_
      (fun es hm => hfail es (List.mem_cons_of_mem _ hm))
    rcases upsStep_updates_cases owner faults now acc g with hc | ⟨feats, st, hc, hg, hp, hf, hok⟩
    · rw [hc]; exact hnot
    · rw [hc]
      simp only [List.map_append, List.map_cons, List.map_nil, List.mem_append,
        List.mem_singleton, List.mem_cons]
      rintro (hin | hin)
      · exact hnot hin
      · simp only [List.not_mem_nil, or_false] at hin
        subst hin
        rcases hfail g.2 (by rw [Prod.mk.eta]; exact List.mem_cons_self _ _) with h | ⟨evts, h⟩ | h | h
        · rw [hg] at h; exact absurd h (by simp)
        · rw [hok] at h; exact absurd h (by simp)
        · rw [hp] at h; exact absurd h (by simp)
        · rw [hf] at h; exact absurd h (by simp)

theorem ups_foldl_interesting_src (owner : String) (faults : Faults) (now : ℤ) :
    ∀ (gs : List (String × List Event)) (acc : UPSAcc) (e : Event),
      e ∈ (gs.foldl (upsStep owner faults now) acc).interesting →
      e ∈ acc.interesting ∨
        ∃ g ∈ gs, ∃ st, faults.getProfileFails (owner ++ "#" ++ g.1) = false ∧
          accumStats g.2 {} = .ok st ∧ e ∈ st.interesting := by
  intro gs
  induction gs with
  | nil => intro acc e he; exact Or.inl (by simpa using he)
  | cons g rest ih =>
    intro acc e he
    rcases ih (upsStep owner faults now acc g) e he with hin | ⟨g', hg', st, h1, h2, h3⟩
    · rcases upsStep_interesting_cases owner faults now acc g with hc | ⟨st, hget, hok, hc⟩
      · rw [hc] at hin; exact Or.inl hin
      · rw [hc, List.mem_append] at hin
        rcases hin with hin | hin
        · exact Or.inl hin
        · exact Or.inr ⟨g, List.mem_cons_self _ _, st, hget, hok, hin⟩
    · exact Or.inr ⟨g', List.mem_cons_of_mem _ hg', st, h1, h2, h3⟩

theorem accumStats_interesting_from : ∀ (events : List Event) (st st' : Stats),
    accumStats events st = .ok st' →
    ∀ e ∈ st'.interesting, e ∈ st.interesting ∨ ∃ evt ∈ events, e = mutateEvent evt := by
  intro events
  induction events with
  | nil =>
    intro st st' h e he
    simp only [accumStats, Except.ok.injEq] at h
    subst h
    exact Or.inl he
  | cons evt rest ih =>
    intro st st' h e he
    obtain ⟨stMid, hMid, -, hi⟩ := accumStats_step evt rest st st' h
    rcases ih stMid st' hMid e he with hmem | ⟨evt', hevt', heq⟩
    · rcases hi with hi | ⟨hi, -⟩
      · rw [hi] at hmem
        exact Or.inl hmem
      · rw [hi, List.mem_append, List.mem_singleton] at hmem
        rcases hmem with hmem | hmem
        · exact Or.inl hmem
        · exact Or.inr ⟨evt, List.mem_cons_self _ _, hmem⟩
    · exact Or.inr ⟨evt', List.mem_cons_of_mem _ hevt', heq⟩

theorem runDetectionOne_playerId (pid : String) (f : Features) :
    ∀ d ∈ runDetectionOne pid f, d.playerId = pid := by
  intro d hd
  simp only [runDetectionOne] at hd
  split at hd
  · exact absurd hd (List.not_mem_nil d)
  · rw [List.mem_append] at hd
    rcases hd with hd | hd
    · split at hd
      · split at hd
        · rw [List.mem_singleton] at hd
          subst hd; rfl
        · exact absurd hd (List.not_mem_nil d)
      · exact absurd hd (List.not_mem_nil d)
    · split at hd
      · rw [List.mem_singleton] at hd
        subst hd; rfl
      · exact absurd hd (List.not_mem_nil d)

theorem run_detection_playerId (pus : List (String × Features)) :
    ∀ d ∈ run_detection pus, ∃ pu ∈ pus, d.playerId = pu.1 := by
  intro d hd
  rw [run_detection_eq_join] at hd
  rw [List.mem_flatten] at hd
  obtain ⟨l, hl, hdl⟩ := hd
  rw [List.mem_map] at hl
  obtain ⟨pu, hpu, rfl⟩ := hl
  exact ⟨pu, hpu, runDetectionOne_playerId pu.1 pu.2 d hdl⟩

/-- C10: the per-player skip on store failure is not atomic with respect
to the interesting list.  For a player's group in a batch: if the
prior-state `get_item` succeeds and `extract_features` returns, but the
`PROFILE` or `FEATURES` `put_item` raises, then the player's interesting
events are already in the batch's interesting list while the player is
absent from `player_updates`, so no detection can fire for them; whereas
a failure at the prior-state `get` excludes the player entirely — absent
from `player_updates` and none of the player's events in the interesting
list. -/
theorem C10_nonatomic_player_skip :
    ∀ (events : List Event) (owner : String) (tbl : PlayersTable) (faults : Faults)
      (now : ℤ) (pid : String) (es : List Event),
      (pid, es) ∈ groupByPlayer events →
      ((∀ st : Stats,
          faults.getProfileFails (owner ++ "#" ++ pid) = false →
          accumStats es {} = .ok st →
          (faults.putProfileFails (owner ++ "#" ++ pid) = true ∨
            faults.putFeaturesFails (owner ++ "#" ++ pid) = true) →
          (∀ e ∈ st.interesting,
            e ∈ (update_player_states events owner tbl faults now).interesting_events) ∧
          pid ∉ ((update_player_states events owner tbl faults now).player_updates.map
            Prod.fst) ∧
          (∀ d ∈ run_detection
              (update_player_states events owner tbl faults now).player_updates,
            d.playerId ≠ pid)) ∧
        (faults.getProfileFails (owner ++ "#" ++ pid) = true →
          pid ∉ ((update_player_states events owner tbl faults now).player_updates.map
            Prod.fst) ∧
          (∀ e ∈ (update_player_states events owner tbl faults now).interesting_events,
            e.playerId.getD "unknown" ≠ pid))) := by
  intro events owner tbl faults now pid es hmem
  have hint : (update_player_states events owner tbl faults now).interesting_events =
      ((groupByPlayer events).foldl (upsStep owner faults now)
        { updates := [], interesting := [], mutGroups := [], table := tbl }).interesting := rfl
  have hupd : (update_player_states events owner tbl faults now).player_updates =
      ((groupByPlayer events).foldl (upsStep owner faults now)
        { updates := [], interesting := [], mutGroups := [], table := tbl }).updates := rfl
  constructor
  · intro st hget hok hput
    have hnotmem : pid ∉ ((update_player_states events owner tbl faults now).player_updates.map
        Prod.fst) := by
      rw [hupd]
      refine ups_foldl_updates_notmem owner faults now (groupByPlayer events) _ pid
        (by simp) ?_
      intro es' hmem'
      have hes : es' = es :=
        nodup_keys_eq_of_mem (groupByPlayer events) pid es' es
          (groupByPlayer_keys_nodup events) hmem' hmem
      subst hes
      rcases hput with hp | hp
      · exact Or.inr (Or.inr (Or.inl hp))
      · exact Or.inr (Or.inr (Or.inr hp))
    refine ⟨?_, hnotmem, ?_⟩
    · intro e he
      rw [hint]
      exact ups_foldl_interesting_contains owner faults now (groupByPlayer events) _
        pid es st hmem hget hok e he
    · intro d hd hdp
      obtain ⟨pu, hpu, hdpu⟩ := run_detection_playerId _ d hd
      apply hnotmem
      rw [← hdp, hdpu]
      exact List.mem_map_of_mem Prod.fst hpu
  · intro hget
    constructor
    · rw [hupd]
      refine ups_foldl_updates_notmem owner faults now (groupByPlayer events) _ pid
        (by simp) ?_
      intro es' _
      exact Or.inl hget
    · intro e he hpe
      rw [hint] at he
      rcases ups_foldl_interesting_src owner faults now (groupByPlayer events) _ e he with
        hin | ⟨g, hg, st, hgf, hok, hest⟩
      · exact absurd hin (List.not_mem_nil e)
      · have hne : g.1 ≠ pid := by
          intro heq
          have : g.2 = es := by
            refine nodup_keys_eq_of_mem (groupByPlayer events) pid g.2 es
              (groupByPlayer_keys_nodup events) ?_ hmem
            rw [← heq, Prod.mk.eta]
            exact hg
          rw [heq] at hgf
          rw [hgf] at hget
          exact absurd hget (by simp)
        rcases accumStats_interesting_from g.2 {} st hok e hest with hin | ⟨evt, hevt, rfl⟩
        · exact absurd hin (List.not_mem_nil e)
        · have hpe' : evt.playerId.getD "unknown" = g.1 :=
            groupByPlayer_mem_playerId events g.1 g.2 (by rw [Prod.mk.eta]; exact hg) evt hevt
          rw [show (mutateEvent evt).playerId = evt.playerId from
            mutateEvent_playerId evt] at hpe
          rw [hpe'] at hpe
          exact hne hpe

/-- Faults for the C10 witness: only the `FEATURES` put for `o#p1` raises. -/
def faultsC10 : Faults := { putFeaturesFails := fun pk => pk == "o#p1" }

/-- C10, witness: with a failing `FEATURES` put for player `p1`, the
tagged event is in the interesting list while `p1` is absent from
`player_updates`. -/
theorem C10_nonatomic_player_skip_witness :
    ({ evC9a with interestingReason := some (.highAccuracy (4/5)) } ∈
      (update_player_states [evC9a] "o" (fun _ => none) faultsC10 0).interesting_events) ∧
    "p1" ∉ ((update_player_states [evC9a] "o" (fun _ => none)
      faultsC10 0).player_updates.map Prod.fst) := by
  have hacc : accumStats [evC9a] ({} : Stats) = .ok stS4a := by
    simp [accumStats, evC9a, stS4a, resolveMetadata, ALWAYS_STORE_EVENTS,
      MIN_SHOTS_FOR_INTERESTING, ACCURACY_INTERESTING_THRESHOLD,
      HEADSHOT_INTERESTING_THRESHOLD, List.lookup]
    try norm_num
  have h := (C10_nonatomic_player_skip [evC9a] "o" (fun _ => none) faultsC10 0 "p1" [evC9a]
    (by simp [groupByPlayer, addToGroup, evC9a])).1 stS4a rfl hacc (Or.inr rfl)
  exact ⟨h.1 _ (by simp [stS4a]), h.2.1⟩

theorem feedback_loop_mono (ids : List String) :
    ∀ (l acc : List Event) (e : Event), e ∈ acc →
      e ∈ l.foldl (fun acc evt =>
        let hit : Bool :=
          match evt.playerId with
          | some pid => decide (pid ∈ ids)
          | none => false
        if hit then
          if evt ∈ acc then acc else acc ++ [evt]
        else acc) acc := by
  intro l
  induction l with
  | nil => intro acc e he; simpa using he
  | cons evt rest ih =>
    intro acc e he
    simp only [List.foldl_cons]
    apply ih
    split
    · split
      · exact he
      · exact List.mem_append_left _ he
    · exact he

theorem feedback_loop_adds (ids : List String) :
    ∀ (l acc : List Event) (e : Event) (pid : String),
      e ∈ l → e.playerId = some pid → pid ∈ ids →
      e ∈ l.foldl (fun acc evt =>
        let hit : Bool :=
          match evt.playerId with
          | some pid => decide (pid ∈ ids)
          | none => false
        if hit then
          if evt ∈ acc then acc else acc ++ [evt]
        else acc) acc := by
  intro l
  induction l with
  | nil => intro acc e pid h; exact absurd h (List.not_mem_nil e)
  | cons evt rest ih =>
    intro acc e pid hmem hpid hin
    rcases List.mem_cons.mp hmem with rfl | hmem
    · simp only [List.foldl_cons]
      apply feedback_loop_mono
      rw [hpid]
      simp only [decide_eq_true_eq]
      rw [if_pos hin]
      split
      · assumption
      · exact List.mem_append_right _ (List.mem_singleton_self e)
    · simp only [List.foldl_cons]
      exact ih _ e pid hmem hpid hin

theorem feedback_loop_src (ids : List String) :
    ∀ (l acc : List Event) (e : Event),
      e ∈ l.foldl (fun acc evt =>
        let hit : Bool :=
          match evt.playerId with
          | some pid => decide (pid ∈ ids)
          | none => false
        if hit then
          if evt ∈ acc then acc else acc ++ [evt]
        else acc) acc →
      e ∈ acc ∨ (e ∈ l ∧ ∃ pid, e.playerId = some pid ∧ pid ∈ ids) := by
  intro l
  induction l with
  | nil => intro acc e he; exact Or.inl (by simpa using he)
  | cons evt rest ih =>
    intro acc e he
    simp only [List.foldl_cons] at he
    rcases ih _ e he with hin | ⟨hmem, hp⟩
    · rcases hev : evt.playerId with _ | pid
      · rw [show (if (match evt.playerId with
            | some pid => decide (pid ∈ ids)
            | none => false : Bool) then
            if evt ∈ acc then acc else acc ++ [evt] else acc) = acc from by
          rw [hev]; rfl] at hin
        exact Or.inl hin
      · by_cases hpin : pid ∈ ids
        · by_cases hevin : evt ∈ acc
          · rw [show (if (match evt.playerId with
                | some pid => decide (pid ∈ ids)
                | none => false : Bool) then
                if evt ∈ acc then acc else acc ++ [evt] else acc) = acc from by
              rw [hev]; simp [hpin, hevin]] at hin
            exact Or.inl hin
          · rw [show (if (match evt.playerId with
                | some pid => decide (pid ∈ ids)
                | none => false : Bool) then
                if evt ∈ acc then acc else acc ++ [evt] else acc) = acc ++ [evt] from by
              rw [hev]; simp [hpin, hevin]] at hin
            rw [List.mem_append, List.mem_singleton] at hin
            rcases hin with hin | rfl
            · exact Or.inl hin
            · exact Or.inr ⟨List.mem_cons_self _ _, pid, hev, hpin⟩
        · rw [show (if (match evt.playerId with
              | some pid => decide (pid ∈ ids)
              | none => false : Bool) then
              if evt ∈ acc then acc else acc ++ [evt] else acc) = acc from by
            rw [hev]; simp [hpin]] at hin
          exact Or.inl hin
    · exact Or.inr ⟨List.mem_cons_of_mem _ hmem, hp⟩

/-- C8: after the feedback loop, every (possibly mutated) input event
whose `playerId` appears in a detection of the same batch is in the final
interesting list; the final list's membership is exactly the extracted
interesting events plus the feedback additions; and the response reports
`eventsSkipped = eventsReceived - len(final interesting)` with
`eventsReceived = len(events)`. -/
theorem C8_feedback_loop (events : List Event) (store : Store) (faults : Faults)
    (now ttl : ℤ) (fresh : ℕ → String) (procMs : ℚ) (request_id : String)
    (hne : events ≠ []) :
    (∀ evt ∈ (runPipeline events store faults now ttl fresh procMs
        request_id).2.2.1.eventsAfter,
      ∀ pid, evt.playerId = some pid →
      (∃ d ∈ (runPipeline events store faults now ttl fresh procMs request_id).2.2.2.1,
        d.playerId = pid) →
      evt ∈ (runPipeline events store faults now ttl fresh procMs request_id).2.2.2.2) ∧
    (∀ e, e ∈ (runPipeline events store faults now ttl fresh procMs request_id).2.2.2.2 ↔
      (e ∈ (runPipeline events store faults now ttl fresh procMs
          request_id).2.2.1.interesting_events ∨
        (e ∈ (runPipeline events store faults now ttl fresh procMs
            request_id).2.2.1.eventsAfter ∧
          ∃ pid, e.playerId = some pid ∧
            ∃ d ∈ (runPipeline events store faults now ttl fresh procMs request_id).2.2.2.1,
              d.playerId = pid))) ∧
    ((runPipeline events store faults now ttl fresh procMs request_id).1.body.lookup
        "eventsSkipped" =
      some (.num (((events.length : ℤ) -
        ((runPipeline events store faults now ttl fresh procMs
          request_id).2.2.2.2).length : ℤ) : ℚ))) ∧
    ((runPipeline events store faults now ttl fresh procMs request_id).1.body.lookup
        "eventsReceived" = some (.num (events.length : ℚ))) := by
  cases events with
  | nil => exact absurd rfl hne
  | cons e0 es0 =>
    simp only [runPipeline, List.isEmpty_cons, Bool.false_eq_true, if_false]
    refine ⟨?_, ?_, ?_, ?_⟩
    · intro evt hevt pid hpid hd
      obtain ⟨d, hdmem, hdpid⟩ := hd
      apply feedback_loop_adds _ _ _ evt pid hevt hpid
      rw [List.mem_map]
      exact ⟨d, hdmem, hdpid⟩
    · intro e
      constructor
      · intro he
        rcases feedback_loop_src _ _ _ e he with hin | ⟨hmem, pid, hpid, hpin⟩
        · exact Or.inl hin
        · rw [List.mem_map] at hpin
          obtain ⟨d, hdmem, hdpid⟩ := hpin
          exact Or.inr ⟨hmem, pid, hpid, d, hdmem, hdpid⟩
      · rintro (hin | ⟨hmem, pid, hpid, d, hdmem, hdpid⟩)
        · exact feedback_loop_mono _ _ _ e hin
        · apply feedback_loop_adds _ _ _ e pid hmem hpid
          rw [List.mem_map]
          exact ⟨d, hdmem, hdpid⟩
    · simp [List.lookup]
    · simp [List.lookup]

/-- C8, witness: the response counters at a concrete one-event batch. -/
theorem C8_feedback_loop_witness :
    (runPipeline [evS4b] emptyStore {} 0 0 (fun _ => "u") 0 "r").1.body.lookup
      "eventsReceived" = some (.num (([evS4b] : List Event).length : ℚ)) :=
  (C8_feedback_loop [evS4b] emptyStore {} 0 0 (fun _ => "u") 0 "r" (by simp)).2.2.2

/-- A `SESSION_START` event of player p1. -/
def evP1a : Event :=
  { eventId := some "a", playerId := some "p1", actionType := some "SESSION_START" }

/-- A `SESSION_START` event of player p2. -/
def evP2b : Event :=
  { eventId := some "b", playerId := some "p2", actionType := some "SESSION_START" }

/-- A second `SESSION_START` event of player p1. -/
def evP1c : Event :=
  { eventId := some "c", playerId := some "p1", actionType := some "SESSION_START" }

/-- C7, counterexample: with players interleaved in the input
`[a(p1), b(p2), c(p1)]` of always-stored events, the interesting list is
the per-player grouped `[a, c, b]`, which is not a subsequence of the
input order — the claim that the list is order-preserving with respect to
the input (a subsequence of it) fails. -/
theorem C7_counterexample :
    (update_player_states [evP1a, evP2b, evP1c] "o" (fun _ => none) {} 0).interesting_events =
      [evP1a, evP1c, evP2b] ∧
    ¬ List.Sublist [evP1a, evP1c, evP2b] [evP1a, evP2b, evP1c] := by
  constructor
  · simp [update_player_states, groupByPlayer, addToGroup, upsStep, extract_features,
      accumStats, ALWAYS_STORE_EVENTS, resolveMetadata, evP1a, evP2b, evP1c]
  · intro h
    have hlen : ([evP1a, evP1c, evP2b] : List Event).length =
        ([evP1a, evP2b, evP1c] : List Event).length := by simp
    have := h.eq_of_length hlen
    simp [evP1a, evP2b, evP1c] at this

/-- C7, amended: the pipeline is a pure function of the input events and
prior store state, so two runs on the same input and state produce the
same interesting list; within each player the interesting events preserve
the input order (each player's interesting list is a subsequence of that
player's mutated sub-batch, which is the pointwise image of the input
sub-batch); but the overall list is the concatenation of the per-player
lists in order of first appearance, so with interleaved players it need
not be a subsequence of the whole input. -/
theorem C7_order :
    (∀ (events : List Event) (store : Store) (faults : Faults) (now ttl : ℤ)
      (fresh : ℕ → String) (procMs : ℚ) (request_id : String),
      runPipeline events store faults now ttl fresh procMs request_id =
        runPipeline events store faults now ttl fresh procMs request_id) ∧
    (∀ (events : List Event) (ex : PItem) (f : Features) (ie me : List Event),
      extract_features events ex = .ok (f, ie, me) →
      ie.Sublist me ∧ me = events.map mutateEvent) ∧
    (∀ (events : List Event) (owner : String) (tbl : PlayersTable) (faults : Faults)
      (now : ℤ),
      (update_player_states events owner tbl faults now).interesting_events =
        ((groupByPlayer events).map (fun g =>
          if faults.getProfileFails (owner ++ "#" ++ g.1) = true then []
          else
            match accumStats g.2 {} with
            | .ok st => st.interesting
            | .error _ => [])).flatten) := by
  refine ⟨fun _ _ _ _ _ _ _ _ => rfl, ?_, ?_⟩
  · intro events ex f ie me h
    simp only [extract_features] at h
    cases hacc : accumStats events ({} : Stats) with
    | error e =>
      rw [hacc] at h
      exact absurd h (by simp)
    | ok st =>
      rw [hacc] at h
      simp only [Except.ok.injEq, Prod.mk.injEq] at h
      obtain ⟨-, hie, hme⟩ := h
      obtain ⟨di, dm, hdi, hdm, hsub⟩ := accumStats_interesting_sublist events {} st hacc
      have hmut := accumStats_mutated events {} st hacc
      constructor
      · rw [← hie, ← hme, hdi, hdm]
        simpa using hsub
      · rw [← hme, hmut]
        simp
  · intro events owner tbl faults now
    suffices h : ∀ (gs : List (String × List Event)) (acc : UPSAcc),
        (gs.foldl (upsStep owner faults now) acc).interesting =
          acc.interesting ++ (gs.map (fun g =>
            if faults.getProfileFails (owner ++ "#" ++ g.1) = true then []
            else
              match accumStats g.2 {} with
              | .ok st => st.interesting
              | .error _ => [])).flatten by
      have := h (groupByPlayer events)
        { updates := [], interesting := [], mutGroups := [], table := tbl }
      simpa [update_player_states] using this
    intro gs
    induction gs with
    | nil => intro acc; simp
    | cons g rest ih =>
      intro acc
      simp only [List.foldl_cons, List.map_cons, List.flatten_cons]
      cases hget : faults.getProfileFails (owner ++ "#" ++ g.1) with
      | true =>
        rw [ih, upsStep_getfail owner faults now acc g hget]
        simp
      | false =>
        cases hacc : accumStats g.2 ({} : Stats) with
        | error evts =>
          have hstep : (upsStep owner faults now acc g).interesting = acc.interesting := by
            simp only [upsStep, hget, Bool.false_eq_true, if_false, extract_features, hacc]
          rw [ih, hstep]
          simp
        | ok st =>
          rw [ih, upsStep_interesting_ok owner faults now acc g st hget hacc]
          simp

/-- C7, witness: the per-player order property at a concrete batch. -/
theorem C7_order_witness :
    stS4a.interesting.Sublist stS4a.mutated ∧
    stS4a.mutated = [evC9a].map mutateEvent := by
  have hacc : accumStats [evC9a] ({} : Stats) = .ok stS4a := by
    simp [accumStats, evC9a, stS4a, resolveMetadata, ALWAYS_STORE_EVENTS,
      MIN_SHOTS_FOR_INTERESTING, ACCURACY_INTERESTING_THRESHOLD,
      HEADSHOT_INTERESTING_THRESHOLD, List.lookup]
    try norm_num
  have hok : extract_features [evC9a] ({} : PItem) =
      .ok (mergeFeatures stS4a {}, stS4a.interesting, stS4a.mutated) := by
    simp only [extract_features, hacc]
  exact C7_order.2.1 [evC9a] {} _ _ _ hok

/-- Forget an event's metadata payload (used to compare runs that differ
only in how an event's metadata was spelled). -/
def eraseMeta (e : Event) : Event := { e with metadata := none }

/-- Forget the metadata payloads inside a loop state. -/
def eraseStats (st : Stats) : Stats :=
  { shots_fired := st.shots_fired
    shots_hit := st.shots_hit
    headshots := st.headshots
    kills := st.kills
    interesting := st.interesting.map eraseMeta
    mutated := st.mutated.map eraseMeta }

/-- Forget the metadata payloads inside a loop outcome. -/
def eraseResult : Except (List Event) Stats → Except (List Event) Stats
  | .error l => .error (l.map eraseMeta)
  | .ok st => .ok (eraseStats st)

theorem eraseStats_fields {st1 st2 : Stats} (h : eraseStats st1 = eraseStats st2) :
    st1.shots_fired = st2.shots_fired ∧ st1.shots_hit = st2.shots_hit ∧
    st1.headshots = st2.headshots ∧ st1.kills = st2.kills ∧
    st1.interesting.map eraseMeta = st2.interesting.map eraseMeta ∧
    st1.mutated.map eraseMeta = st2.mutated.map eraseMeta := by
  refine ⟨?_, ?_, ?_, ?_, ?_, ?_⟩
  · have hc := congrArg Stats.shots_fired h; exact hc
  · have hc := congrArg Stats.shots_hit h; exact hc
  · have hc := congrArg Stats.headshots h; exact hc
  · have hc := congrArg Stats.kills h; exact hc
  · have hc := congrArg Stats.interesting h; exact hc
  · have hc := congrArg Stats.mutated h; exact hc

theorem eraseStats_ext {st1 st2 : Stats}
    (h1 : st1.shots_fired = st2.shots_fired) (h2 : st1.shots_hit = st2.shots_hit)
    (h3 : st1.headshots = st2.headshots) (h4 : st1.kills = st2.kills)
    (h5 : st1.interesting.map eraseMeta = st2.interesting.map eraseMeta)
    (h6 : st1.mutated.map eraseMeta = st2.mutated.map eraseMeta) :
    eraseStats st1 = eraseStats st2 := by
  simp only [eraseStats, Stats.mk.injEq]
  exact ⟨h1, h2, h3, h4, h5, h6⟩

theorem accumStats_congr_erase :
    ∀ (l : List Event) (st1 st2 : Stats), eraseStats st1 = eraseStats st2 →
      eraseResult (accumStats l st1) = eraseResult (accumStats l st2) := by
  intro l
  induction l with
  | nil =>
    intro st1 st2 hR
    simp only [accumStats, eraseResult, hR]
  | cons evt rest ih =>
    intro st1 st2 hR
    obtain ⟨h1, h2, h3, h4, h5, h6⟩ := eraseStats_fields hR
    by_cases hA : (evt.actionType.getD "") ∈ ALWAYS_STORE_EVENTS
    · rw [show accumStats (evt :: rest) st1 =
          accumStats rest
            { st1 with
              kills := st1.kills + (if evt.actionType.getD "" = "PLAYER_KILLED" then 1 else 0),
              interesting := st1.interesting ++ [evt],
              mutated := st1.mutated ++ [evt] } from by
        simp only [accumStats]; rw [if_pos hA]]
      rw [show accumStats (evt :: rest) st2 =
          accumStats rest
            { st2 with
              kills := st2.kills + (if evt.actionType.getD "" = "PLAYER_KILLED" then 1 else 0),
              interesting := st2.interesting ++ [evt],
              mutated := st2.mutated ++ [evt] } from by
        simp only [accumStats]; rw [if_pos hA]]
      exact ih _ _ (eraseStats_ext h1 h2 h3 (by rw [h4]) (by simp [h5]) (by simp [h6]))
    · by_cases hW : evt.actionType.getD "" = "WEAPON_FIRED"
      · rcases hM : resolveMetadata evt.metadata with _ | md
        · rw [show accumStats (evt :: rest) st1 = .error (st1.mutated ++ evt :: rest) from by
            simp only [accumStats]; rw [if_neg hA, if_pos hW, hM]]
          rw [show accumStats (evt :: rest) st2 = .error (st2.mutated ++ evt :: rest) from by
            simp only [accumStats]; rw [if_neg hA, if_pos hW, hM]]
          simp only [eraseResult, Except.error.injEq]
          simp [h6]
        · by_cases hS : ((md.lookup "shots").getD 1) ≥ MIN_SHOTS_FOR_INTERESTING
          · by_cases hAcc : (if ((md.lookup "shots").getD 1) > 0 then
                ((md.lookup "hits").getD 0) / ((md.lookup "shots").getD 1) else 0) ≥
                ACCURACY_INTERESTING_THRESHOLD
            · rw [show accumStats (evt :: rest) st1 =
                  accumStats rest
                    { st1 with
                      shots_fired := st1.shots_fired + ((md.lookup "shots").getD 1),
                      shots_hit := st1.shots_hit + ((md.lookup "hits").getD 0),
                      headshots := st1.headshots + ((md.lookup "headshots").getD 0),
                      interesting := st1.interesting ++
                        [{ evt with interestingReason := some (.highAccuracy
                            (if ((md.lookup "shots").getD 1) > 0 then
                              ((md.lookup "hits").getD 0) / ((md.lookup "shots").getD 1)
                            else 0)) }],
                      mutated := st1.mutated ++
                        [{ evt with interestingReason := some (.highAccuracy
                            (if ((md.lookup "shots").getD 1) > 0 then
                              ((md.lookup "hits").getD 0) / ((md.lookup "shots").getD 1)
                            else 0)) }] } from by
                simp only [accumStats]
                rw [if_neg hA, if_pos hW, hM]
                simp only [if_pos hS, if_pos hAcc]]
              rw [show accumStats (evt :: rest) st2 =
                  accumStats rest
                    { st2 with
                      shots_fired := st2.shots_fired + ((md.lookup "shots").getD 1),
                      shots_hit := st2.shots_hit + ((md.lookup "hits").getD 0),
                      headshots := st2.headshots + ((md.lookup "headshots").getD 0),
                      interesting := st2.interesting ++
                        [{ evt with interestingReason := some (.highAccuracy
                            (if ((md.lookup "shots").getD 1) > 0 then
                              ((md.lookup "hits").getD 0) / ((md.lookup "shots").getD 1)
                            else 0)) }],
                      mutated := st2.mutated ++
                        [{ evt with interestingReason := some (.highAccuracy
                            (if ((md.lookup "shots").getD 1) > 0 then
                              ((md.lookup "hits").getD 0) / ((md.lookup "shots").getD 1)
                            else 0)) }] } from by
                simp only [accumStats]
                rw [if_neg hA, if_pos hW, hM]
                simp only [if_pos hS, if_pos hAcc]]
              exact ih _ _ (eraseStats_ext (by rw [h1]) (by rw [h2]) (by rw [h3]) h4
                (by simp [h5]) (by simp [h6]))
            · by_cases hHsr : (((md.lookup "headshots").getD 0) /
                  max ((md.lookup "hits").getD 0) 1) ≥ HEADSHOT_INTERESTING_THRESHOLD
              · rw [show accumStats (evt :: rest) st1 =
                    accumStats rest
                      { st1 with
                        shots_fired := st1.shots_fired + ((md.lookup "shots").getD 1),
                        shots_hit := st1.shots_hit + ((md.lookup "hits").getD 0),
                        headshots := st1.headshots + ((md.lookup "headshots").getD 0),
                        interesting := st1.interesting ++
                          [{ evt with interestingReason := some (.highHeadshot
                              (((md.lookup "headshots").getD 0) /
                                max ((md.lookup "hits").getD 0) 1)) }],
                        mutated := st1.mutated ++
                          [{ evt with interestingReason := some (.highHeadshot
                              (((md.lookup "headshots").getD 0) /
                                max ((md.lookup "hits").getD 0) 1)) }] } from by
                  simp only [accumStats]
                  rw [if_neg hA, if_pos hW, hM]
                  simp only [if_pos hS, if_neg hAcc, if_pos hHsr]]
                rw [show accumStats (evt :: rest) st2 =
                    accumStats rest
                      { st2 with
                        shots_fired := st2.shots_fired + ((md.lookup "shots").getD 1),
                        shots_hit := st2.shots_hit + ((md.lookup "hits").getD 0),
                        headshots := st2.headshots + ((md.lookup "headshots").getD 0),
                        interesting := st2.interesting ++
                          [{ evt with interestingReason := some (.highHeadshot
                              (((md.lookup "headshots").getD 0) /
                                max ((md.lookup "hits").getD 0) 1)) }],
                        mutated := st2.mutated ++
                          [{ evt with interestingReason := some (.highHeadshot
                              (((md.lookup "headshots").getD 0) /
                                max ((md.lookup "hits").getD 0) 1)) }] } from by
                  simp only [accumStats]
                  rw [if_neg hA, if_pos hW, hM]
                  simp only [if_pos hS, if_neg hAcc, if_pos hHsr]]
                exact ih _ _ (eraseStats_ext (by rw [h1]) (by rw [h2]) (by rw [h3]) h4
                  (by simp [h5]) (by simp [h6]))
              · rw [show accumStats (evt :: rest) st1 =
                    accumStats rest
                      { st1 with
                        shots_fired := st1.shots_fired + ((md.lookup "shots").getD 1),
                        shots_hit := st1.shots_hit + ((md.lookup "hits").getD 0),
                        headshots := st1.headshots + ((md.lookup "headshots").getD 0),
                        mutated := st1.mutated ++ [evt] } from by
                  simp only [accumStats]
                  rw [if_neg hA, if_pos hW, hM]
                  simp only [if_pos hS, if_neg hAcc, if_neg hHsr]]
                rw [show accumStats (evt :: rest) st2 =
                    accumStats rest
                      { st2 with
                        shots_fired := st2.shots_fired + ((md.lookup "shots").getD 1),
                        shots_hit := st2.shots_hit + ((md.lookup "hits").getD 0),
                        headshots := st2.headshots + ((md.lookup "headshots").getD 0),
                        mutated := st2.mutated ++ [evt] } from by
                  simp only [accumStats]
                  rw [if_neg hA, if_pos hW, hM]
                  simp only [if_pos hS, if_neg hAcc, if_neg hHsr]]
                exact ih _ _ (eraseStats_ext (by rw [h1]) (by rw [h2]) (by rw [h3]) h4 h5
                  (by simp [h6]))
          · rw [show accumStats (evt :: rest) st1 =
                accumStats rest
                  { st1 with
                    shots_fired := st1.shots_fired + ((md.lookup "shots").getD 1),
                    shots_hit := st1.shots_hit + ((md.lookup "hits").getD 0),
                    headshots := st1.headshots + ((md.lookup "headshots").getD 0),
                    mutated := st1.mutated ++ [evt] } from by
              simp only [accumStats]
              rw [if_neg hA, if_pos hW, hM]
              simp only [if_neg hS]]
            rw [show accumStats (evt :: rest) st2 =
                accumStats rest
                  { st2 with
                    shots_fired := st2.shots_fired + ((md.lookup "shots").getD 1),
                    shots_hit := st2.shots_hit + ((md.lookup "hits").getD 0),
                    headshots := st2.headshots + ((md.lookup "headshots").getD 0),
                    mutated := st2.mutated ++ [evt] } from by
              simp only [accumStats]
              rw [if_neg hA, if_pos hW, hM]
              simp only [if_neg hS]]
            exact ih _ _ (eraseStats_ext (by rw [h1]) (by rw [h2]) (by rw [h3]) h4 h5
              (by simp [h6]))
      · by_cases hP : evt.actionType.getD "" = "PLAYER_ATTACK"
        · rcases hM : resolveMetadata evt.metadata with _ | md
          · rw [show accumStats (evt :: rest) st1 = .error (st1.mutated ++ evt :: rest) from by
              simp only [accumStats]; rw [if_neg hA, if_neg hW, if_pos hP, hM]]
            rw [show accumStats (evt :: rest) st2 = .error (st2.mutated ++ evt :: rest) from by
              simp only [accumStats]; rw [if_neg hA, if_neg hW, if_pos hP, hM]]
            simp only [eraseResult, Except.error.injEq]
            simp [h6]
          · by_cases hD : ((md.lookup "damage").getD 0) > HIGH_DAMAGE_THRESHOLD
            · rw [show accumStats (evt :: rest) st1 =
                  accumStats rest
                    { st1 with
                      interesting := st1.interesting ++
                        [{ evt with interestingReason := some (.highDamage
                            ((md.lookup "damage").getD 0)) }],
                      mutated := st1.mutated ++
                        [{ evt with interestingReason := some (.highDamage
                            ((md.lookup "damage").getD 0)) }] } from by
                simp only [accumStats]
                rw [if_neg hA, if_neg hW, if_pos hP, hM]
                simp only [if_pos hD]]
              rw [show accumStats (evt :: rest) st2 =
                  accumStats rest
                    { st2 with
                      interesting := st2.interesting ++
                        [{ evt with interestingReason := some (.highDamage
                            ((md.lookup "damage").getD 0)) }],
                      mutated := st2.mutated ++
                        [{ evt with interestingReason := some (.highDamage
                            ((md.lookup "damage").getD 0)) }] } from by
                simp only [accumStats]
                rw [if_neg hA, if_neg hW, if_pos hP, hM]
                simp only [if_pos hD]]
              exact ih _ _ (eraseStats_ext h1 h2 h3 h4 (by simp [h5]) (by simp [h6]))
            · rw [show accumStats (evt :: rest) st1 =
                  accumStats rest { st1 with mutated := st1.mutated ++ [evt] } from by
                simp only [accumStats]
                rw [if_neg hA, if_neg hW, if_pos hP, hM]
                simp only [if_neg hD]]
              rw [show accumStats (evt :: rest) st2 =
                  accumStats rest { st2 with mutated := st2.mutated ++ [evt] } from by
                simp only [accumStats]
                rw [if_neg hA, if_neg hW, if_pos hP, hM]
                simp only [if_neg hD]]
              exact ih _ _ (eraseStats_ext h1 h2 h3 h4 h5 (by simp [h6]))
        · rw [show accumStats (evt :: rest) st1 =
              accumStats rest { st1 with mutated := st1.mutated ++ [evt] } from by
            simp only [accumStats]; rw [if_neg hA, if_neg hW, if_neg hP]]
          rw [show accumStats (evt :: rest) st2 =
              accumStats rest { st2 with mutated := st2.mutated ++ [evt] } from by
            simp only [accumStats]; rw [if_neg hA, if_neg hW, if_neg hP]]
          exact ih _ _ (eraseStats_ext h1 h2 h3 h4 h5 (by simp [h6]))

/-- One iteration of the `extract_features` per-event loop, as a function
of the event and the loop state; `none` models the raising `.get`. -/
def stepEvt (evt : Event) (st : Stats) : Option Stats :=
  let action_type := evt.actionType.getD ""
  if action_type ∈ ALWAYS_STORE_EVENTS then
    some { st with
      kills := st.kills + (if action_type = "PLAYER_KILLED" then 1 else 0),
      interesting := st.interesting ++ [evt],
      mutated := st.mutated ++ [evt] }
  else if action_type = "WEAPON_FIRED" then
    match resolveMetadata evt.metadata with
    | none => none
    | some md =>
      let evt_shots := (md.lookup "shots").getD 1
      let evt_hits := (md.lookup "hits").getD 0
      let evt_headshots := (md.lookup "headshots").getD 0
      let st1 :=
        { st with
          shots_fired := st.shots_fired + evt_shots,
          shots_hit := st.shots_hit + evt_hits,
          headshots := st.headshots + evt_headshots }
      if evt_shots ≥ MIN_SHOTS_FOR_INTERESTING then
        let evt_accuracy := if evt_shots > 0 then evt_hits / evt_shots else 0
        let evt_hsr := evt_headshots / max evt_hits 1
        if evt_accuracy ≥ ACCURACY_INTERESTING_THRESHOLD then
          let tagged := { evt with interestingReason := some (.highAccuracy evt_accuracy) }
          some { st1 with
            interesting := st1.interesting ++ [tagged],
            mutated := st1.mutated ++ [tagged] }
        else if evt_hsr ≥ HEADSHOT_INTERESTING_THRESHOLD then
          let tagged := { evt with interestingReason := some (.highHeadshot evt_hsr) }
          some { st1 with
            interesting := st1.interesting ++ [tagged],
            mutated := st1.mutated ++ [tagged] }
        else
          some { st1 with mutated := st1.mutated ++ [evt] }
      else
        some { st1 with mutated := st1.mutated ++ [evt] }
  else if action_type = "PLAYER_ATTACK" then
    match resolveMetadata evt.metadata with
    | none => none
    | some md =>
      let damage := (md.lookup "damage").getD 0
      if damage > HIGH_DAMAGE_THRESHOLD then
        let tagged := { evt with interestingReason := some (.highDamage damage) }
        some { st with
          interesting := st.interesting ++ [tagged],
          mutated := st.mutated ++ [tagged] }
      else
        some { st with mutated := st.mutated ++ [evt] }
  else
    some { st with mutated := st.mutated ++ [evt] }

theorem accumStats_cons_eq (evt : Event) (l : List Event) (st : Stats) :
    accumStats (evt :: l) st =
      (match stepEvt evt st with
       | some st' => accumStats l st'
       | none => .error (st.mutated ++ evt :: l)) := by
  simp only [accumStats, stepEvt]
  repeat' split
  all_goals simp_all

theorem accumStats_append (l₁ l₂ : List Event) :
    ∀ st, accumStats (l₁ ++ l₂) st =
      (match accumStats l₁ st with
       | .ok st' => accumStats l₂ st'
       | .error p => .error (p ++ l₂)) := by
  induction l₁ with
  | nil => intro st; simp [accumStats]
  | cons evt rest ih =>
    intro st
    rw [List.cons_append, accumStats_cons_eq, accumStats_cons_eq]
    cases hstep : stepEvt evt st with
    | none => simp
    | some st' => exact ih st'

theorem accumStats_str_dict_cons (evt : Event) (r : List Event) (st : Stats) :
    eraseResult (accumStats ({ evt with metadata := some (.str none) } :: r) st) =
      eraseResult (accumStats ({ evt with metadata := some (.dict []) } :: r) st) := by
  rw [accumStats_cons_eq, accumStats_cons_eq]
  have herase : ∀ r : Option Reason,
      eraseMeta { evt with metadata := some (.str none), interestingReason := r } =
      eraseMeta { evt with metadata := some (.dict []), interestingReason := r } := by
    intro r; rfl
  have heraseSelf : eraseMeta { evt with metadata := some (Metadata.str none) } =
      eraseMeta { evt with metadata := some (Metadata.dict []) } := rfl
  by_cases hA : (evt.actionType.getD "") ∈ ALWAYS_STORE_EVENTS
  · simp only [stepEvt, resolveMetadata, if_pos hA]
    refine accumStats_congr_erase r _ _ ?_
    refine eraseStats_ext rfl rfl rfl rfl ?_ ?_ <;>
      simp only [List.map_append, List.map_cons, List.map_nil] <;>
      rw [heraseSelf]
  · by_cases hW : evt.actionType.getD "" = "WEAPON_FIRED"
    · simp only [stepEvt, resolveMetadata, if_neg hA, if_pos hW, List.lookup,
        Option.getD_none]
      rw [if_neg (by norm_num [MIN_SHOTS_FOR_INTERESTING] : ¬ (1 : ℚ) ≥
        MIN_SHOTS_FOR_INTERESTING), if_neg (by norm_num [MIN_SHOTS_FOR_INTERESTING] :
        ¬ (1 : ℚ) ≥ MIN_SHOTS_FOR_INTERESTING)]
      refine accumStats_congr_erase r _ _ ?_
      refine eraseStats_ext rfl rfl rfl rfl rfl ?_
      simp only [List.map_append, List.map_cons, List.map_nil]
      rw [heraseSelf]
    · by_cases hP : evt.actionType.getD "" = "PLAYER_ATTACK"
      · simp only [stepEvt, resolveMetadata, if_neg hA, if_neg hW, if_pos hP, List.lookup,
          Option.getD_none]
        rw [if_neg (by norm_num [HIGH_DAMAGE_THRESHOLD] : ¬ (0 : ℚ) >
          HIGH_DAMAGE_THRESHOLD), if_neg (by norm_num [HIGH_DAMAGE_THRESHOLD] :
          ¬ (0 : ℚ) > HIGH_DAMAGE_THRESHOLD)]
        refine accumStats_congr_erase r _ _ ?_
        refine eraseStats_ext rfl rfl rfl rfl rfl ?_
        simp only [List.map_append, List.map_cons, List.map_nil]
        rw [heraseSelf]
      · simp only [stepEvt, if_neg hA, if_neg hW, if_neg hP]
        refine accumStats_congr_erase r _ _ ?_
        refine eraseStats_ext rfl rfl rfl rfl rfl ?_
        simp only [List.map_append, List.map_cons, List.map_nil]
        rw [heraseSelf]

/-- Forget metadata payloads inside an `extract_features` outcome. -/
def eraseExtract :
    Except (List Event) (Features × List Event × List Event) →
      Except (List Event) (Features × List Event × List Event)
  | .error l => .error (l.map eraseMeta)
  | .ok (f, ie, me) => .ok (f, ie.map eraseMeta, me.map eraseMeta)

theorem mergeFeatures_congr {st1 st2 : Stats} (ex : PItem)
    (h1 : st1.shots_fired = st2.shots_fired) (h2 : st1.shots_hit = st2.shots_hit)
    (h3 : st1.headshots = st2.headshots) (h4 : st1.kills = st2.kills) :
    mergeFeatures st1 ex = mergeFeatures st2 ex := by
  simp only [mergeFeatures, h1, h2, h3, h4]

theorem upsStep_updates_ok (owner : String) (faults : Faults) (now : ℤ) (acc : UPSAcc)
    (g : String × List Event) (st : Stats)
    (hget : faults.getProfileFails (owner ++ "#" ++ g.1) = false)
    (hpp : faults.putProfileFails (owner ++ "#" ++ g.1) = false)
    (hpf : faults.putFeaturesFails (owner ++ "#" ++ g.1) = false)
    (hok : accumStats g.2 {} = .ok st) :
    (upsStep owner faults now acc g).updates = acc.updates ++
      [(g.1, mergeFeatures st ((acc.table (owner ++ "#" ++ g.1, "PROFILE")).getD {}))] := by
  simp only [upsStep, hget, Bool.false_eq_true, if_false, extract_features, hok, hpp, hpf]

theorem ups_foldl_updates_keys_mono (owner : String) (faults : Faults) (now : ℤ) :
    ∀ (gs : List (String × List Event)) (acc : UPSAcc) (pid : String),
      pid ∈ acc.updates.map Prod.fst →
      pid ∈ ((gs.foldl (upsStep owner faults now) acc).updates).map Prod.fst := by
  intro gs
  induction gs with
  | nil => intro acc pid h; simpa using h
  | cons g rest ih =>
    intro acc pid h
    refine ih (upsStep owner faults now acc g) pid ?_
    rcases upsStep_updates_cases owner faults now acc g with hc | ⟨feats, st, hc, -, -, -, -⟩
    · rw [hc]; exact h
    · rw [hc, List.map_append]
      exact List.mem_append_left _ h

theorem ups_foldl_updates_mem (owner : String) (faults : Faults) (now : ℤ) :
    ∀ (gs : List (String × List Event)) (acc : UPSAcc) (pid : String) (es : List Event)
      (st : Stats),
      (pid, es) ∈ gs →
      faults.getProfileFails (owner ++ "#" ++ pid) = false →
      faults.putProfileFails (owner ++ "#" ++ pid) = false →
      faults.putFeaturesFails (owner ++ "#" ++ pid) = false →
      accumStats es {} = .ok st →
      pid ∈ ((gs.foldl (upsStep owner faults now) acc).updates).map Prod.fst := by
  intro gs
  induction gs with
  | nil => intro acc pid es st h; exact absurd h (List.not_mem_nil _)
  | cons g rest ih =>
    intro acc pid es st hmem hget hpp hpf hok
    rcases List.mem_cons.mp hmem with hmem | hmem
    · refine ups_foldl_updates_keys_mono owner faults now rest _ pid ?_
      rw [upsStep_updates_ok owner faults now acc g st (by rw [← hmem]; exact hget)
        (by rw [← hmem]; exact hpp) (by rw [← hmem]; exact hpf) (by rw [← hmem]; exact hok)]
      rw [List.map_append]
      refine List.mem_append_right _ ?_
      rw [← hmem]
      simp
    · exact ih (upsStep owner faults now acc g) pid es st hmem hget hpp hpf hok

/-- C6, amended: metadata coercion.  (1) An event whose `metadata` is a
string that fails to parse behaves exactly like the same event carrying an
empty mapping, up to the stored metadata payload itself: the features, the
tagging decisions and the mutated caller list agree after forgetting the
metadata payloads.  (2) A player whose sub-batch raises on a metadata
`.get` (a `WEAPON_FIRED`/`PLAYER_ATTACK` event whose coerced metadata is
not a mapping) loses the **whole** sub-batch contribution: the player is
absent from `player_updates` and none of the player's events reach the
interesting list.  (3) The batch is not aborted: any other player whose
store calls succeed and whose sub-batch extraction succeeds is still
updated. -/
theorem C6_metadata_coercion :
    (∀ (l r : List Event) (evt : Event) (ex : PItem),
      eraseExtract (extract_features (l ++ { evt with metadata := some (.str none) } :: r) ex) =
      eraseExtract (extract_features (l ++ { evt with metadata := some (.dict []) } :: r) ex)) ∧
    (∀ (events : List Event) (owner : String) (tbl : PlayersTable) (faults : Faults)
      (now : ℤ) (pid : String) (es evts : List Event),
      (pid, es) ∈ groupByPlayer events →
      accumStats es {} = .error evts →
      pid ∉ ((update_player_states events owner tbl faults now).player_updates.map
        Prod.fst) ∧
      (∀ e ∈ (update_player_states events owner tbl faults now).interesting_events,
        e.playerId.getD "unknown" ≠ pid)) ∧
    (∀ (events : List Event) (owner : String) (tbl : PlayersTable) (faults : Faults)
      (now : ℤ) (pid : String) (es : List Event) (st : Stats),
      (pid, es) ∈ groupByPlayer events →
      faults.getProfileFails (owner ++ "#" ++ pid) = false →
      faults.putProfileFails (owner ++ "#" ++ pid) = false →
      faults.putFeaturesFails (owner ++ "#" ++ pid) = false →
      accumStats es {} = .ok st →
      pid ∈ ((update_player_states events owner tbl faults now).player_updates.map
        Prod.fst)) := by
  refine ⟨?_, ?_, ?_⟩
  · intro l r evt ex
    have key : eraseResult (accumStats (l ++ { evt with metadata := some (.str none) } :: r)
        {}) = eraseResult (accumStats (l ++ { evt with metadata := some (.dict []) } :: r)
        {}) := by
      rw [accumStats_append, accumStats_append]
      cases haccl : accumStats l ({} : Stats) with
      | error p =>
        simp only [eraseResult, Except.error.injEq, List.map_append, List.map_cons]
        rw [show eraseMeta { evt with metadata := some (Metadata.str none) } =
          eraseMeta { evt with metadata := some (Metadata.dict []) } from rfl]
      | ok st' => exact accumStats_str_dict_cons evt r st'
    simp only [extract_features]
    cases hacc1 : accumStats (l ++ { evt with metadata := some (.str none) } :: r)
        ({} : Stats) with
    | error p1 =>
      cases hacc2 : accumStats (l ++ { evt with metadata := some (.dict []) } :: r)
          ({} : Stats) with
      | error p2 =>
        rw [hacc1, hacc2] at key
        simp only [eraseResult, Except.error.injEq] at key
        simp only [eraseExtract, Except.error.injEq]
        exact key
      | ok st2 =>
        rw [hacc1, hacc2] at key
        exact absurd key (by simp [eraseResult])
    | ok st1 =>
      cases hacc2 : accumStats (l ++ { evt with metadata := some (.dict []) } :: r)
          ({} : Stats) with
      | error p2 =>
        rw [hacc1, hacc2] at key
        exact absurd key (by simp [eraseResult])
      | ok st2 =>
        rw [hacc1, hacc2] at key
        simp only [eraseResult, Except.ok.injEq] at key
        obtain ⟨h1, h2, h3, h4, h5, h6⟩ := eraseStats_fields key
        simp only [eraseExtract, Except.ok.injEq, Prod.mk.injEq]
        exact ⟨mergeFeatures_congr ex h1 h2 h3 h4, h5, h6⟩
  · intro events owner tbl faults now pid es evts hmem herr
    have hupd : (update_player_states events owner tbl faults now).player_updates =
        ((groupByPlayer events).foldl (upsStep owner faults now)
          { updates := [], interesting := [], mutGroups := [], table := tbl }).updates := rfl
    have hint : (update_player_states events owner tbl faults now).interesting_events =
        ((groupByPlayer events).foldl (upsStep owner faults now)
          { updates := [], interesting := [], mutGroups := [], table := tbl }).interesting :=
      rfl
    constructor
    · rw [hupd]
      refine ups_foldl_updates_notmem owner faults now (groupByPlayer events) _ pid
        (by simp) ?_
      intro es' hmem'
      have hes : es' = es :=
        nodup_keys_eq_of_mem (groupByPlayer events) pid es' es
          (groupByPlayer_keys_nodup events) hmem' hmem
      subst hes
      exact Or.inr (Or.inl ⟨evts, herr⟩)
    · intro e he hpe
      rw [hint] at he
      rcases ups_foldl_interesting_src owner faults now (groupByPlayer events) _ e he with
        hin | ⟨g, hg, st, hgf, hok, hest⟩
      · exact absurd hin (List.not_mem_nil e)
      · have hne : g.1 ≠ pid := by
          intro heq
          have hgs : g.2 = es := by
            refine nodup_keys_eq_of_mem (groupByPlayer events) pid g.2 es
              (groupByPlayer_keys_nodup events) ?_ hmem
            rw [← heq, Prod.mk.eta]
            exact hg
          rw [hgs, herr] at hok
          exact absurd hok (by simp)
        rcases accumStats_interesting_from g.2 {} st hok e hest with hin | ⟨evt, hevt, rfl⟩
        · exact absurd hin (List.not_mem_nil e)
        · have hpe' : evt.playerId.getD "unknown" = g.1 :=
            groupByPlayer_mem_playerId events g.1 g.2 (by rw [Prod.mk.eta]; exact hg) evt hevt
          rw [show (mutateEvent evt).playerId = evt.playerId from
            mutateEvent_playerId evt] at hpe
          rw [hpe'] at hpe
          exact hne hpe
  · intro events owner tbl faults now pid es st hmem hget hpp hpf hok
    have hupd : (update_player_states events owner tbl faults now).player_updates =
        ((groupByPlayer events).foldl (upsStep owner faults now)
          { updates := [], interesting := [], mutGroups := [], table := tbl }).updates := rfl
    rw [hupd]
    exact ups_foldl_updates_mem owner faults now (groupByPlayer events) _ pid es st hmem
      hget hpp hpf hok

/-- An event whose metadata is neither a string nor a mapping (a number,
list, boolean or null in the JSON payload). -/
def evBadMeta : Event :=
  { playerId := some "p1"
    actionType := some "WEAPON_FIRED"
    metadata := some .other }

/-- The same event with its metadata coerced to an empty mapping. -/
def evBadMetaCo : Event :=
  { playerId := some "p1"
    actionType := some "WEAPON_FIRED"
    metadata := some (.dict []) }

/-- The first C9 event as tagged by the loop (accuracy 8/10 ≥ 0.7). -/
def tagC6 : Event := { evC9a with interestingReason := some (.highAccuracy (4/5)) }

/-- Loop state after processing `[evC9a, evBadMetaCo]`: the coerced empty
mapping defaults `shots` to 1 (below the interesting floor). -/
def stC6co : Stats :=
  { shots_fired := 11
    shots_hit := 8
    headshots := 0
    kills := 0
    interesting := [tagC6]
    mutated := [tagC6, evBadMetaCo] }

/-- C6, counterexample: non-mapping metadata is NOT coerced to an empty
mapping, nor is only that event skipped.  On `[evC9a, evBadMeta]` the
`metadata.get` raise propagates to the per-player handler, so `p1` gets no
profile update and even `evC9a`'s high-accuracy tag is lost from the
interesting list; under either behaviour the claim allows — coercing
`evBadMeta`'s metadata to `{}`, or dropping only `evBadMeta` — `p1` would
have been updated. -/
theorem C6_counterexample :
    "p1" ∉ ((update_player_states [evC9a, evBadMeta] "o" (fun _ => none) {}
        0).player_updates.map Prod.fst) ∧
    (update_player_states [evC9a, evBadMeta] "o" (fun _ => none) {}
        0).interesting_events = [] ∧
    "p1" ∈ ((update_player_states [evC9a, evBadMetaCo] "o" (fun _ => none) {}
        0).player_updates.map Prod.fst) ∧
    "p1" ∈ ((update_player_states [evC9a] "o" (fun _ => none) {}
        0).player_updates.map Prod.fst) := by
  have hpid1 : evC9a.playerId.getD "unknown" = "p1" := rfl
  have hpidB : evBadMeta.playerId.getD "unknown" = "p1" := rfl
  have hpidC : evBadMetaCo.playerId.getD "unknown" = "p1" := rfl
  have haccBad : accumStats [evC9a, evBadMeta] ({} : Stats) = .error [tagC6, evBadMeta] := by
    simp [accumStats, evC9a, evBadMeta, tagC6, resolveMetadata, ALWAYS_STORE_EVENTS,
      MIN_SHOTS_FOR_INTERESTING, ACCURACY_INTERESTING_THRESHOLD,
      HEADSHOT_INTERESTING_THRESHOLD, List.lookup]
    try norm_num
  have hxBad : extract_features [evC9a, evBadMeta] ({} : PItem) =
      .error [tagC6, evBadMeta] := by
    simp only [extract_features, haccBad]
  have haccCo : accumStats [evC9a, evBadMetaCo] ({} : Stats) = .ok stC6co := by
    simp [accumStats, evC9a, evBadMetaCo, tagC6, stC6co, resolveMetadata,
      ALWAYS_STORE_EVENTS, MIN_SHOTS_FOR_INTERESTING, ACCURACY_INTERESTING_THRESHOLD,
      HEADSHOT_INTERESTING_THRESHOLD, List.lookup]
    try norm_num
  have hxCo : extract_features [evC9a, evBadMetaCo] ({} : PItem) =
      .ok (mergeFeatures stC6co {}, stC6co.interesting, stC6co.mutated) := by
    simp only [extract_features, haccCo]
  have hacc1 : accumStats [evC9a] ({} : Stats) = .ok stS4a := by
    simp [accumStats, evC9a, stS4a, resolveMetadata, ALWAYS_STORE_EVENTS,
      MIN_SHOTS_FOR_INTERESTING, ACCURACY_INTERESTING_THRESHOLD,
      HEADSHOT_INTERESTING_THRESHOLD, List.lookup]
    try norm_num
  have hx1 : extract_features [evC9a] ({} : PItem) =
      .ok (fS4a, stS4a.interesting, stS4a.mutated) := by
    simp only [extract_features, hacc1, fS4a]
  refine ⟨?_, ?_, ?_, ?_⟩
  · simp [update_player_states, groupByPlayer, addToGroup, upsStep, hxBad, hpid1, hpidB]
  · simp [update_player_states, groupByPlayer, addToGroup, upsStep, hxBad, hpid1, hpidB]
  · simp [update_player_states, groupByPlayer, addToGroup, upsStep, hxCo, hpid1, hpidC]
  · simp [update_player_states, groupByPlayer, addToGroup, upsStep, hx1, hpid1]

/-- C6, witness: at concrete inputs — an unparsable-string metadata event
behaves like an empty-mapping one up to stored metadata; the player whose
sub-batch holds `evBadMeta` is skipped wholesale; a clean single-event
batch is updated. -/
theorem C6_metadata_coercion_witness :
    (eraseExtract
        (extract_features ([] ++ { evC9a with metadata := some (.str none) } :: [])
          ({} : PItem)) =
      eraseExtract
        (extract_features ([] ++ { evC9a with metadata := some (.dict []) } :: [])
          ({} : PItem))) ∧
    "p1" ∉ ((update_player_states [evC9a, evBadMeta] "o" (fun _ => none) {}
        0).player_updates.map Prod.fst) ∧
    "p1" ∈ ((update_player_states [evC9a] "o" (fun _ => none) {}
        0).player_updates.map Prod.fst) := by
  have hpid1 : evC9a.playerId.getD "unknown" = "p1" := rfl
  have hpidB : evBadMeta.playerId.getD "unknown" = "p1" := rfl
  have hgrpB : ("p1", [evC9a, evBadMeta]) ∈ groupByPlayer [evC9a, evBadMeta] := by
    simp [groupByPlayer, addToGroup, hpid1, hpidB]
  have haccBad : accumStats [evC9a, evBadMeta] ({} : Stats) = .error [tagC6, evBadMeta] := by
    simp [accumStats, evC9a, evBadMeta, tagC6, resolveMetadata, ALWAYS_STORE_EVENTS,
      MIN_SHOTS_FOR_INTERESTING, ACCURACY_INTERESTING_THRESHOLD,
      HEADSHOT_INTERESTING_THRESHOLD, List.lookup]
    try norm_num
  have hgrp1 : ("p1", [evC9a]) ∈ groupByPlayer [evC9a] := by
    simp [groupByPlayer, addToGroup, hpid1]
  have hacc1 : accumStats [evC9a] ({} : Stats) = .ok stS4a := by
    simp [accumStats, evC9a, stS4a, resolveMetadata, ALWAYS_STORE_EVENTS,
      MIN_SHOTS_FOR_INTERESTING, ACCURACY_INTERESTING_THRESHOLD,
      HEADSHOT_INTERESTING_THRESHOLD, List.lookup]
    try norm_num
  refine ⟨C6_metadata_coercion.1 [] [] evC9a {}, ?_, ?_⟩
  · exact (C6_metadata_coercion.2.1 [evC9a, evBadMeta] "o" (fun _ => none) {} 0 "p1"
      [evC9a, evBadMeta] [tagC6, evBadMeta] hgrpB haccBad).1
  · exact C6_metadata_coercion.2.2 [evC9a] "o" (fun _ => none) {} 0 "p1" [evC9a] stS4a
      hgrp1 rfl rfl rfl hacc1

end BehaviorAnalyzer
